import Mathlib

/-!
# Aitken under-relaxation (`mui::algo_aitken`, `coupling_algorithms/algo_aitken.h`)

A shallow embedding of the class `algo_aitken` and theorems about it.

Conventions of the embedding.

* `REAL`, `time_type` and the value type `OTYPE` are one linearly ordered field `K`
  (the definitions run on `ℚ`); `INT` and `size_t` counts are natural numbers.
* `point_type`, `normsq`, `std::sqrt`, `std::numeric_limits<REAL>::epsilon()`,
  `std::numeric_limits<REAL>::max()` and `std::numeric_limits<time_type>::lowest()` come from
  headers outside this file of the source; they are the fields of `Config`.
* A `std::vector` is a `List` whose head is `begin()`. An iterator is the index of its element
  at the moment of the lookup, `none` for `end()`. An assignment through an iterator leaves the
  iterators into the vector valid. An insertion into a vector, which the source always makes at
  `begin()`, invalidates every iterator into that vector, `end()` included; an invalidated
  iterator that is compared or dereferenced afterwards is undefined behaviour.
* The mutable members are threaded explicitly: every operation returns the new state.
* An `assert` that does not hold, the dereference of an `end()` iterator, the use of an
  invalidated iterator and the path of `relaxation` that reaches the end of the function without
  a `return` are results of type `Err`.
-/

set_option linter.unusedVariables false
set_option linter.unusedSectionVars false

namespace Aitken

/-- Abnormal outcomes of the operations of the source. -/
inductive Err where
  /-- The path of `relaxation` that only prints the non-monotonic diagnostic (source line 145)
  and leaves the function without a `return` statement. -/
  | UnsupportedInput
  /-- An `assert` of the source does not hold. -/
  | AssertionFailure
  /-- An iterator equal to `end()` is dereferenced. -/
  | EndIterator
  /-- An iterator is compared or dereferenced after an insertion into its vector. -/
  | InvalidIterator
  /-- The recursion budget of the embedding of `update_undRelxFac` is used up. -/
  | OutOfFuel
  deriving DecidableEq, Repr

deriving instance DecidableEq for Except

/-- Collaborators of the class that live in other headers (`util.h`, `config.h`, `<limits>`,
`<cmath>`). -/
structure Config (K P : Type) where
  /-- The constant `std::numeric_limits<REAL>::epsilon()`. -/
  epsilon : K
  /-- The constant `std::numeric_limits<REAL>::max()`. -/
  max : K
  /-- The constant `std::numeric_limits<time_type>::lowest()`. -/
  lowest : K
  /-- The function `std::sqrt`. -/
  sqrt : K → K
  /-- The function `mui::normsq` on points. -/
  normsq : P → K

/-- Data members of `algo_aitken` (source lines 610-617). -/
structure State (K P : Type) where
  initUndRelxFac_ : K
  undRelxFacMax_ : K
  undRelxFac_ : List (K × K)
  residualL2Norm_ : List (K × (Nat × K))
  ptsTimeVlu_ : List (K × List (P × K))
  ptsTimeRes_ : List (K × List (P × K))
  deriving DecidableEq

section Defs

variable {K P : Type} [LinearOrderedField K] [Sub P]

/-- The algorithm `std::find_if`: index of the first element satisfying `p`, `none` for
`end()`. -/
def find_if {α : Type} (p : α → Bool) : List α → Option Nat
  | [] => none
  | a :: l => if p a then some 0 else (find_if p l).map (fun i => i + 1)

/-- Assignment through an iterator: the element at index `i` is replaced by its image under
`f`. -/
def assign_at {α : Type} (f : α → α) : Nat → List α → List α
  | _, [] => []
  | 0, a :: l => f a :: l
  | i + 1, a :: l => a :: assign_at f i l

/-- Constructor `algo_aitken(undRelxFac, undRelxFacMax, ptsVluInit, resL2NormNM1)` (source lines
64-88). The initialiser list names `initUndRelxFac_` only: the member `undRelxFacMax_` is not
initialised from `undRelxFacMax`, and the value it holds is the extra argument
`indeterminate`. -/
def algo_aitken (cfg : Config K P) (undRelxFac undRelxFacMax : K)
    (ptsVluInit : List (P × K)) (resL2NormNM1 : K) (indeterminate : K) : State K P :=
  { initUndRelxFac_ := undRelxFac
    undRelxFacMax_ := indeterminate
    undRelxFac_ := []
    residualL2Norm_ := if resL2NormNM1 ≠ 0 then [(cfg.lowest, (0, resL2NormNM1))] else []
    ptsTimeVlu_ := if !ptsVluInit.isEmpty then [(cfg.lowest, ptsVluInit)] else []
    ptsTimeRes_ := [] }

/-- Member `sign` (source lines 604-607). -/
def sign (value : K) : Int :=
  if value < 0 then -1 else (if value > 0 then 1 else 0)

/-- Member `calculate_aitken_constraint` (source lines 585-589), with the member
`undRelxFacMax_` as first argument. -/
def calculate_aitken_constraint (undRelxFacMax_ : K) (undRelxfactor : K) : K :=
  (sign undRelxfactor : K) * min |undRelxfactor| undRelxFacMax_

/-- The loop `localResidualMagSqSumTemp += std::pow(elementPair.second, 2)` over the residuals
of one level (source lines 262-266, 291-295, 441-445, 460-464, 519-523, 538-542). -/
def localResidualMagSqSum (res : List (P × K)) : K :=
  res.foldl (fun acc elementPair => acc + elementPair.2 ^ 2) 0

/-- Local variables of the `N2_linear` selection loop. -/
structure N2 (K : Type) where
  r2min_1st : K
  r2min_2nd : K
  value_1st : K
  value_2nd : K

/-- One pass of the body of the selection loop (source lines 219-228, 172-181, 319-328). -/
def N2_step (cfg : Config K P) (focus : P) (st : N2 K) (b : P × K) : N2 K :=
  let dr2 := cfg.normsq (focus - b.1)
  if dr2 < st.r2min_1st then
    { r2min_1st := dr2, r2min_2nd := st.r2min_1st, value_1st := b.2, value_2nd := st.value_1st }
  else if dr2 < st.r2min_2nd then
    { st with r2min_2nd := dr2, value_2nd := b.2 }
  else st

/-- The selection loop over the points of a level, started as in source lines 215-217. -/
def N2_loop (cfg : Config K P) (focus : P) (pts : List (P × K)) : N2 K :=
  pts.foldl (N2_step cfg focus)
    { r2min_1st := cfg.max, r2min_2nd := cfg.max, value_1st := 0, value_2nd := 0 }

/-- Interpolation "by N2_linear" (source lines 214-234, 167-187, 314-334): the selection loop
followed by the weighted mean of the two selected values. -/
def N2_linear (cfg : Config K P) (focus : P) (pts : List (P × K)) : K :=
  let st := N2_loop cfg focus pts
  let r1 := cfg.sqrt st.r2min_1st
  let r2 := cfg.sqrt st.r2min_2nd
  (st.value_1st * r2 + st.value_2nd * r1) / (r1 + r2)

/-- Lookup of the focus point among the points of a level (source lines 207-210, 153-161,
307-310, 342-350). -/
def find_point (cfg : Config K P) (focus : P) (pts : List (P × K)) : Option Nat :=
  find_if (fun b => decide (cfg.normsq (focus - b.1) < cfg.epsilon)) pts

/-- Resolution of `filteredOldValue` from the points of the previous level (source lines
207-240 and 307-340): the value stored for the first matching point, else the interpolation. -/
def resolve_old (cfg : Config K P) (focus : P) (pts : List (P × K)) : Except Err K :=
  match find_point cfg focus pts with
  | none => .ok (N2_linear cfg focus pts)
  | some i =>
    match pts[i]? with
    | some b => .ok b.2
    | none => .error .EndIterator

/-- Lookup `resL2NormNM2Iter` (source lines 419-422). Its predicate reads
`resL2NormNM1Iter->first`: on an empty vector the predicate is never called; on a non-empty
vector with `resL2NormNM1Iter` equal to `end()` the predicate dereferences `end()`. -/
def find_NM2 (residualL2Norm_ : List (K × (Nat × K))) (resL2NormNM1Iter : Option Nat) :
    Except Err (Option Nat) :=
  match residualL2Norm_, resL2NormNM1Iter with
  | [], _ => .ok none
  | _ :: _, none => .error .EndIterator
  | l, some i =>
    match l[i]? with
    | none => .error .EndIterator
    | some nm1 => .ok (find_if (fun b => decide (b.1 < nm1.1)) l)

/-- Store of the factor of time `t`. With `undRelxPresentIter` equal to `end()` the pair is
inserted at `begin()` (source lines 427, 478-492, 497); otherwise the factor is assigned
through `undRelxPresentIter` when it differs from the stored one (source lines 503-506,
556-572, 576-579). -/
def store_factor (s : State K P) (undRelxPresentIter : Option Nat) (t factor : K) : State K P :=
  match undRelxPresentIter with
  | none => { s with undRelxFac_ := (t, factor) :: s.undRelxFac_ }
  | some i =>
    { s with undRelxFac_ :=
        assign_at (fun b => if b.2 ≠ factor then (b.1, factor) else b) i s.undRelxFac_ }

/-- Check of one cached norm against the residual history (source lines 433-450 for
`resL2NormNM2Iter`, 452-469 for `resL2NormNM1Iter`, and their copies 511-528, 530-547). The
argument `recurse` is the recursive call of `update_undRelxFac`. -/
def refresh_norm (cfg : Config K P) (recurse : State K P → K → Except Err (State K P))
    (s : State K P) (resL2NormIter : Nat) : Except Err (State K P) :=
  match s.residualL2Norm_[resL2NormIter]? with
  | none => .error .EndIterator
  | some nm =>
    match find_if (fun b => decide (nm.1 - b.1 < cfg.epsilon)) s.ptsTimeRes_ with
    | none => .error .AssertionFailure
    | some ptsTimeResIter =>
      match s.ptsTimeRes_[ptsTimeResIter]? with
      | none => .error .EndIterator
      | some lvl =>
        if lvl.2.length ≠ nm.2.1 then
          recurse
            { s with residualL2Norm_ :=
                (assign_at (fun b => (b.1, (b.2.1, cfg.sqrt (localResidualMagSqSum lvl.2))))
                  resL2NormIter s.residualL2Norm_) }
            nm.1
        else .ok s

/-- Member `update_undRelxFac` (source lines 402-583), with a recursion budget as first
argument. The two outer branches of the source (no factor stored for `t`, lines 424-499; a
factor stored for `t`, lines 500-582) have the same text up to the final store, which is
`store_factor`. The iterators `undRelxPresentIter` and `undRelxPrevIter` are taken before the
recursive calls of lines 449, 468, 527 and 546. The vector `undRelxFac_` grows by insertions
only, so its length has changed exactly when one of those calls has inserted a factor, and
then both iterators are invalidated: the comparison of `undRelxPrevIter` with `end()` (lines
477, 555) and the assignment through `undRelxPresentIter` (lines 576-578) use an invalidated
iterator, the insertion of line 497 uses none. -/
def update_undRelxFac_fuel (cfg : Config K P) :
    Nat → State K P → K → Except Err (State K P)
  | 0, _, _ => .error .OutOfFuel
  | fuel + 1, s, t =>
    let undRelxPresentIter := find_if (fun b => decide (t - b.1 < cfg.epsilon)) s.undRelxFac_
    let undRelxPrevIter := find_if (fun b => decide (b.1 < t)) s.undRelxFac_
    let resL2NormNM1Iter := find_if (fun b => decide (b.1 < t)) s.residualL2Norm_
    match find_NM2 s.residualL2Norm_ resL2NormNM1Iter with
    | .error e => .error e
    | .ok none => .ok (store_factor s undRelxPresentIter t s.initUndRelxFac_)
    | .ok (some nm2) =>
      match resL2NormNM1Iter, s.residualL2Norm_[nm2]? with
      | none, _ => .error .AssertionFailure
      | _, none => .error .EndIterator
      | some nm1, some nm2Entry =>
        let refreshed : Except Err (State K P) :=
          if nm2Entry.2.1 ≠ 0 then
            match refresh_norm cfg (update_undRelxFac_fuel cfg fuel) s nm2 with
            | .error e => .error e
            | .ok s1 => refresh_norm cfg (update_undRelxFac_fuel cfg fuel) s1 nm1
          else .ok s
        match refreshed with
        | .error e => .error e
        | .ok s2 =>
          match s2.residualL2Norm_[nm2]?, s2.residualL2Norm_[nm1]? with
          | some e2, some e1 =>
            let nominator := e2.2.2
            let denominator := e1.2.2 - e2.2.2
            let invalidated : Bool := s2.undRelxFac_.length != s.undRelxFac_.length
            if denominator ≠ 0 then
              if invalidated then .error .InvalidIterator
              else
                match undRelxPrevIter with
                | none =>
                  .ok (store_factor s2 undRelxPresentIter t
                    (calculate_aitken_constraint s2.undRelxFacMax_
                      (-s2.initUndRelxFac_ * (nominator / denominator))))
                | some j =>
                  match s2.undRelxFac_[j]? with
                  | none => .error .EndIterator
                  | some prev =>
                    .ok (store_factor s2 undRelxPresentIter t
                      (calculate_aitken_constraint s2.undRelxFacMax_
                        (-prev.2 * (nominator / denominator))))
            else if nominator = 0 then
              match undRelxPresentIter with
              | none => .ok (store_factor s2 none t 0)
              | some i =>
                if invalidated then .error .InvalidIterator
                else .ok (store_factor s2 (some i) t 0)
            else .error .AssertionFailure
          | _, _ => .error .EndIterator

/-- Member `update_undRelxFac` (source lines 402-583). Every recursive call is made at the time
of a cached norm below the present time, so one more than the number of cached norms is a
sufficient budget. -/
def update_undRelxFac (cfg : Config K P) (s : State K P) (t : K) : Except Err (State K P) :=
  update_undRelxFac_fuel cfg (s.residualL2Norm_.length + 1) s t

/-- Member `calculate_relaxed_value` (source lines 386-400). -/
def calculate_relaxed_value (cfg : Config K P) (s : State K P) (t filteredValue
    filteredOldValue : K) : Except Err (K × State K P) :=
  match update_undRelxFac cfg s t with
  | .error e => .error e
  | .ok s1 =>
    match find_if (fun b => decide (t - b.1 < cfg.epsilon)) s1.undRelxFac_ with
    | none => .error .AssertionFailure
    | some undRelxPresentIter =>
      match s1.undRelxFac_[undRelxPresentIter]? with
      | none => .error .EndIterator
      | some b => .ok (b.2 * filteredValue + (1 - b.2) * filteredOldValue, s1)

/-- Member `calculate_point_residual` (source lines 597-602). -/
def calculate_point_residual (cfg : Config K P) (s : State K P) (t filteredValue
    filteredOldValue : K) : Except Err (K × State K P) :=
  match calculate_relaxed_value cfg s t filteredValue filteredOldValue with
  | .error e => .error e
  | .ok (relaxed, s1) => .ok (filteredValue - relaxed, s1)

/-- Branch of `relaxation` for an empty value history (source lines 96-114). -/
def relaxation_first (cfg : Config K P) (s : State K P) (t : K) (focus : P)
    (filteredValue : K) : Except Err (K × State K P) :=
  if !s.ptsTimeRes_.isEmpty then .error .AssertionFailure
  else
    let filteredOldValue : K := 0
    match calculate_relaxed_value cfg s t filteredValue filteredOldValue with
    | .error e => .error e
    | .ok (vlu, s1) =>
      let s2 := { s1 with ptsTimeVlu_ := (t, [(focus, vlu)]) :: s1.ptsTimeVlu_ }
      match calculate_point_residual cfg s2 t filteredValue filteredOldValue with
      | .error e => .error e
      | .ok (res, s3) =>
        let s4 := { s3 with ptsTimeRes_ := (t, [(focus, res)]) :: s3.ptsTimeRes_ }
        calculate_relaxed_value cfg s4 t filteredValue filteredOldValue

/-- Branch of `relaxation` for a present level without a previous level (source lines
147-200). -/
def relaxation_present_only (cfg : Config K P) (s : State K P) (focus : P) (filteredValue : K)
    (presentIter : Nat) (presentResIter : Option Nat) : Except Err (K × State K P) :=
  match s.ptsTimeVlu_[presentIter]?, presentResIter with
  | none, _ => .error .EndIterator
  | _, none => .error .EndIterator
  | some present, some pri =>
    match s.ptsTimeRes_[pri]? with
    | none => .error .EndIterator
    | some presentRes =>
      if ¬ (present.1 - presentRes.1 < cfg.epsilon) then .error .AssertionFailure
      else if s.residualL2Norm_.isEmpty then .error .AssertionFailure
      else
        let ptsRelxValIter := find_point cfg focus present.2
        let ptsRelxResIter := find_point cfg focus presentRes.2
        match ptsRelxValIter with
        | none =>
          if ptsRelxResIter ≠ none then .error .AssertionFailure
          else
            let relaxedValueTemp := N2_linear cfg focus present.2
            .ok (relaxedValueTemp,
              { s with
                ptsTimeVlu_ :=
                  (assign_at (fun b => (b.1, (focus, relaxedValueTemp) :: b.2))
                    presentIter s.ptsTimeVlu_)
                ptsTimeRes_ :=
                  (assign_at (fun b => (b.1, (focus, filteredValue - relaxedValueTemp) :: b.2))
                    pri s.ptsTimeRes_) })
        | some i =>
          match present.2[i]?, ptsRelxResIter with
          | none, _ => .error .EndIterator
          | _, none => .error .EndIterator
          | some vlu, some ri =>
            match presentRes.2[ri]? with
            | none => .error .EndIterator
            | some res =>
              if ¬ (cfg.normsq (vlu.1 - res.1) < cfg.epsilon) then .error .AssertionFailure
              else .ok (vlu.2, s)

/-- Caching of the residual norm of the previous level when a new level is created (source
lines 254-299), in the state that holds the new level. The insertions of lines 246 and 252
have invalidated `previousIter` and `previousResIter`, and these lines read both. On a
non-empty norm cache the predicate of the lookup of lines 254-257 dereferences `previousIter`
for the first cached norm (line 256). On an empty norm cache the predicate is never called,
the lookup returns `end()`, and the assertion of line 260 dereferences `previousIter`. -/
def cache_previous_norm (s : State K P) : Except Err (State K P) :=
  match s.residualL2Norm_ with
  | _ :: _ => .error .InvalidIterator
  | [] => .error .InvalidIterator

/-- Branch of `relaxation` for a new level after a previous one (source lines 202-301). The
iterators `previousIter` and `previousResIter` are read for the last time as valid iterators
in lines 207-238; after the insertions of lines 246 and 252 they are invalidated. -/
def relaxation_new_level (cfg : Config K P) (s : State K P) (t : K) (focus : P)
    (filteredValue : K) (previousIter : Nat) (presentResIter previousResIter : Option Nat) :
    Except Err (K × State K P) :=
  if presentResIter ≠ none then .error .AssertionFailure
  else
    match s.ptsTimeVlu_[previousIter]? with
    | none => .error .EndIterator
    | some previous =>
      match resolve_old cfg focus previous.2 with
      | .error e => .error e
      | .ok filteredOldValue =>
        match calculate_relaxed_value cfg s t filteredValue filteredOldValue with
        | .error e => .error e
        | .ok (vlu, s1) =>
          let s2 := { s1 with ptsTimeVlu_ := (t, [(focus, vlu)]) :: s1.ptsTimeVlu_ }
          match calculate_point_residual cfg s2 t filteredValue filteredOldValue with
          | .error e => .error e
          | .ok (res, s3) =>
            let s4 := { s3 with ptsTimeRes_ := (t, [(focus, res)]) :: s3.ptsTimeRes_ }
            match cache_previous_norm s4 with
            | .error e => .error e
            | .ok s5 => calculate_relaxed_value cfg s5 t filteredValue filteredOldValue

/-- Branch of `relaxation` for a present level with a previous level (source lines
303-378). -/
def relaxation_revisit (cfg : Config K P) (s : State K P) (t : K) (focus : P)
    (filteredValue : K) (presentIter previousIter : Nat) (presentResIter : Option Nat) :
    Except Err (K × State K P) :=
  match s.ptsTimeVlu_[presentIter]?, presentResIter with
  | none, _ => .error .EndIterator
  | _, none => .error .EndIterator
  | some present, some pri =>
    match s.ptsTimeRes_[pri]?, s.ptsTimeVlu_[previousIter]? with
    | none, _ => .error .EndIterator
    | _, none => .error .EndIterator
    | some presentRes, some previous =>
      if ¬ (present.1 - presentRes.1 < cfg.epsilon) then .error .AssertionFailure
      else
        match resolve_old cfg focus previous.2 with
        | .error e => .error e
        | .ok filteredOldValue =>
          let ptsPresentRelxValIter := find_point cfg focus present.2
          let ptsRelxResIter := find_point cfg focus presentRes.2
          match ptsPresentRelxValIter with
          | none =>
            if ptsRelxResIter ≠ none then .error .AssertionFailure
            else
              match calculate_relaxed_value cfg s t filteredValue filteredOldValue with
              | .error e => .error e
              | .ok (vlu, s1) =>
                let s2 := { s1 with ptsTimeVlu_ :=
                  (assign_at (fun b => (b.1, (focus, vlu) :: b.2)) presentIter s1.ptsTimeVlu_) }
                match calculate_point_residual cfg s2 t filteredValue filteredOldValue with
                | .error e => .error e
                | .ok (res, s3) =>
                  let s4 := { s3 with ptsTimeRes_ :=
                    (assign_at (fun b => (b.1, (focus, res) :: b.2)) pri s3.ptsTimeRes_) }
                  calculate_relaxed_value cfg s4 t filteredValue filteredOldValue
          | some i =>
            match present.2[i]?, ptsRelxResIter with
            | none, _ => .error .EndIterator
            | _, none => .error .EndIterator
            | some vluEntry, some ri =>
              match presentRes.2[ri]? with
              | none => .error .EndIterator
              | some resEntry =>
                if ¬ (cfg.normsq (vluEntry.1 - resEntry.1) < cfg.epsilon) then
                  .error .AssertionFailure
                else
                  match calculate_relaxed_value cfg s t filteredValue filteredOldValue with
                  | .error e => .error e
                  | .ok (vlu, s1) =>
                    let s2 := { s1 with ptsTimeVlu_ :=
                      (assign_at (fun b => (b.1, assign_at (fun c => (c.1, vlu)) i b.2))
                        presentIter s1.ptsTimeVlu_) }
                    match calculate_point_residual cfg s2 t filteredValue filteredOldValue with
                    | .error e => .error e
                    | .ok (res, s3) =>
                      let s4 := { s3 with ptsTimeRes_ :=
                        (assign_at (fun b => (b.1, assign_at (fun c => (c.1, res)) ri b.2))
                          pri s3.ptsTimeRes_) }
                      calculate_relaxed_value cfg s4 t filteredValue filteredOldValue

/-- Member `relaxation` (source lines 91-383). -/
def relaxation (cfg : Config K P) (s : State K P) (t : K) (focus : P) (filteredValue : K) :
    Except Err (K × State K P) :=
  if s.ptsTimeVlu_.isEmpty then relaxation_first cfg s t focus filteredValue
  else
    let presentIter := find_if (fun b => decide (t - b.1 < cfg.epsilon)) s.ptsTimeVlu_
    let previousIter := find_if (fun b => decide (b.1 < t)) s.ptsTimeVlu_
    let presentResIter := find_if (fun b => decide (t - b.1 < cfg.epsilon)) s.ptsTimeRes_
    let previousResIter := find_if (fun b => decide (b.1 < t)) s.ptsTimeRes_
    match presentIter, previousIter with
    | none, none =>
      if presentResIter ≠ none then .error .AssertionFailure else .error .UnsupportedInput
    | some present, none =>
      relaxation_present_only cfg s focus filteredValue present presentResIter
    | none, some previous =>
      relaxation_new_level cfg s t focus filteredValue previous presentResIter previousResIter
    | some present, some previous =>
      relaxation_revisit cfg s t focus filteredValue present previous presentResIter

end Defs

/-! ## Vocabulary of the statements -/

section Vocabulary

variable {K P : Type} [LinearOrderedField K]

/-- The factor used for time `t`: the lookup of `calculate_relaxed_value` (source lines
391-398). -/
def factor_at (cfg : Config K P) (s : State K P) (t : K) : Option K :=
  match find_if (fun b => decide (t - b.1 < cfg.epsilon)) s.undRelxFac_ with
  | none => none
  | some i => (s.undRelxFac_[i]?).map (fun b => b.2)

/-- The test of source lines 439 and 458 finds the cached norm at index `i` up to date: the
cached count equals the number of residuals of the level that the lookup of source lines
433-435 returns for it. -/
def norm_up_to_date (cfg : Config K P) (s : State K P) (i : Nat) : Prop :=
  ∃ nm j lvl, s.residualL2Norm_[i]? = some nm ∧
    find_if (fun b => decide (nm.1 - b.1 < cfg.epsilon)) s.ptsTimeRes_ = some j ∧
    s.ptsTimeRes_[j]? = some lvl ∧ lvl.2.length = nm.2.1

/-- The cached norm at index `i` is up to date for its own level: the residual history holds a
level with the time of the entry, and the entry has the number of residuals of that level as
count and the square root of the sum of their squares as norm. -/
def norm_of_own_level (cfg : Config K P) (s : State K P) (i : Nat) : Prop :=
  ∃ nm lvl, s.residualL2Norm_[i]? = some nm ∧ lvl ∈ s.ptsTimeRes_ ∧ lvl.1 = nm.1 ∧
    nm.2.1 = lvl.2.length ∧ nm.2.2 = cfg.sqrt (localResidualMagSqSum lvl.2)

/-- States reachable from `s0` by calls of `relaxation` that return. -/
inductive Reachable [Sub P] (cfg : Config K P) (s0 : State K P) : State K P → Prop
  | start : Reachable cfg s0 s0
  | call (s s' : State K P) (t : K) (focus : P) (filteredValue r : K) :
      Reachable cfg s0 s → relaxation cfg s t focus filteredValue = .ok (r, s') →
      Reachable cfg s0 s'

/-- Largest natural number whose square is at most `n`. -/
def sqrtNat (n : Nat) : Nat :=
  (List.range (n + 1)).foldl (fun r k => if k * k ≤ n then k else r) 0

/-- A square root on `ℚ`: exact on the squares of rationals. -/
def sqrtQ (q : ℚ) : ℚ := (sqrtNat q.num.toNat : ℚ) / (sqrtNat q.den : ℚ)

/-- Collaborators over `ℚ` used to run the definitions: points are rationals with
`normsq x = x * x`, `epsilon` is `1/1000`, `max` is `10000` and `lowest` is `-10000`. -/
def cfgQ : Config ℚ ℚ :=
  { epsilon := 1 / 1000
    max := 10000
    lowest := -10000
    sqrt := sqrtQ
    normsq := fun x => x * x }

/-- Outcome of the selection loop on the points `l`, all at squared distance below `max`:
nothing selected on the empty list, one point selected on a list of one point, and otherwise
the nearest point `b1` and the second nearest point `b2`. -/
def N2_selected [Sub P] (cfg : Config K P) (focus : P) (l : List (P × K)) (st : N2 K) : Prop :=
  (l = [] ∧ st = ⟨cfg.max, cfg.max, 0, 0⟩) ∨
  (∃ b1, l = [b1] ∧ st = ⟨cfg.normsq (focus - b1.1), cfg.max, b1.2, 0⟩) ∨
  (∃ b1 b2 rest, l.Perm (b1 :: b2 :: rest) ∧
    st = ⟨cfg.normsq (focus - b1.1), cfg.normsq (focus - b2.1), b1.2, b2.2⟩ ∧
    cfg.normsq (focus - b1.1) ≤ cfg.normsq (focus - b2.1) ∧
    ∀ b ∈ rest, cfg.normsq (focus - b2.1) ≤ cfg.normsq (focus - b.1))


/-- Consecutive calls of `relaxation`: the values returned, in order, and the last state. -/
def relaxations [Sub P] (cfg : Config K P) (s : State K P) :
    List (K × P × K) → Except Err (List K × State K P)
  | [] => .ok ([], s)
  | (t, focus, filteredValue) :: rest =>
    match relaxation cfg s t focus filteredValue with
    | .error e => .error e
    | .ok (r, s1) =>
      match relaxations cfg s1 rest with
      | .error e => .error e
      | .ok (rs, s2) => .ok (r :: rs, s2)

/-- A state with the two levels `2` and `1`, one point in each, and a cached norm for level
`1`. -/
def stateTwoLevels : State ℚ ℚ :=
  { initUndRelxFac_ := 1 / 2
    undRelxFacMax_ := 1
    undRelxFac_ := [(2, 1 / 2), (1, 1 / 2)]
    residualL2Norm_ := [(1, (1, 0))]
    ptsTimeVlu_ := [(2, [(0, 1)]), (1, [(0, 0)])]
    ptsTimeRes_ := [(2, [(0, 1)]), (1, [(0, 0)])] }

/-- The cold engine `algo_aitken(1/2, 1)` after the query `(1, 0, 2)`. -/
def stateOneLevel : State ℚ ℚ :=
  { initUndRelxFac_ := 1 / 2
    undRelxFacMax_ := 1
    undRelxFac_ := [(1, 1 / 2)]
    residualL2Norm_ := []
    ptsTimeVlu_ := [(1, [(0, 1)])]
    ptsTimeRes_ := [(1, [(0, 1)])] }

/-- The cold engine `algo_aitken(1/2, 1)` after the query `(0, 0, 2)`. -/
def stateZeroLevel : State ℚ ℚ :=
  { initUndRelxFac_ := 1 / 2
    undRelxFacMax_ := 1
    undRelxFac_ := [(0, 1 / 2)]
    residualL2Norm_ := []
    ptsTimeVlu_ := [(0, [(0, 1)])]
    ptsTimeRes_ := [(0, [(0, 1)])] }

/-- The state `stateZeroLevel` after the query `(1/10^17, 0, 4)`, at a time above that of level
`0` and within `epsilon` of it, also for the `epsilon` of double precision. -/
def stateRevisited : State ℚ ℚ :=
  { initUndRelxFac_ := 1 / 2
    undRelxFacMax_ := 1
    undRelxFac_ := [(0, 1 / 2)]
    residualL2Norm_ := []
    ptsTimeVlu_ := [(0, [(0, 5 / 2)])]
    ptsTimeRes_ := [(0, [(0, 3 / 2)])] }

/-- The engine `algo_aitken(1/2, 1)` constructed with the warm-start residual norm `1` and no
warm-start values, after the query `(2, 0, 2)`. -/
def stateWarmNorm : State ℚ ℚ :=
  { initUndRelxFac_ := 1 / 2
    undRelxFacMax_ := 1
    undRelxFac_ := [(2, 1 / 2)]
    residualL2Norm_ := [(-10000, (0, 1))]
    ptsTimeVlu_ := [(2, [(0, 1)])]
    ptsTimeRes_ := [(2, [(0, 1)])] }

/-- A state whose cached norms one level back and two levels back of time `3` are up to date
for their own levels: level `2` holds the residuals `12` and `9`, of norm `15`, and level `1`
the residual `3`; the head level `3` holds the residuals `4` and `3`, of norm `5`. The entry
of time `-10000` is the warm-start entry. -/
def stateFreshNorms : State ℚ ℚ :=
  { initUndRelxFac_ := 1 / 2
    undRelxFacMax_ := 1
    undRelxFac_ := [(2, 1 / 2)]
    residualL2Norm_ := [(2, (2, 15)), (1, (1, 3)), (-10000, (0, 7))]
    ptsTimeVlu_ := [(3, [(1, 0), (0, 0)]), (2, [(1, 0), (0, 0)]), (1, [(0, 0)])]
    ptsTimeRes_ := [(3, [(1, 4), (0, 3)]), (2, [(1, 12), (0, 9)]), (1, [(0, 3)])] }

/-- A state whose cached norms one level back and two levels back of time `3` are both `0` and
up to date for their own levels, each of one residual `0`; the head level `3` holds the
residuals `4` and `3`, of norm `5`, and a factor is stored for time `3`. -/
def stateFreshZeros : State ℚ ℚ :=
  { initUndRelxFac_ := 1 / 2
    undRelxFacMax_ := 1
    undRelxFac_ := [(3, 1 / 2)]
    residualL2Norm_ := [(2, (1, 0)), (1, (1, 0)), (-10000, (0, 7))]
    ptsTimeVlu_ := [(3, [(1, 0), (0, 0)]), (2, [(0, 0)]), (1, [(0, 0)])]
    ptsTimeRes_ := [(3, [(1, 4), (0, 3)]), (2, [(0, 0)]), (1, [(0, 0)])] }

/-- A state whose cached norms one level back and two levels back of time `3` are both `0` and
up to date for their own levels, of two residuals `0` and of one residual `0`; the head level
`3` holds the residuals `4` and `3`, of norm `5`, and no factor is stored for time `3`. -/
def stateFreshZerosPair : State ℚ ℚ :=
  { initUndRelxFac_ := 1 / 2
    undRelxFacMax_ := 1
    undRelxFac_ := [(2, 1 / 2)]
    residualL2Norm_ := [(2, (2, 0)), (1, (1, 0)), (-10000, (0, 7))]
    ptsTimeVlu_ := [(3, [(1, 0), (0, 0)]), (2, [(1, 0), (0, 0)]), (1, [(0, 0)])]
    ptsTimeRes_ := [(3, [(1, 4), (0, 3)]), (2, [(1, 0), (0, 0)]), (1, [(0, 0)])] }

/-- Effect of one returning call `relaxation t focus _` on the two histories: a new level is
put in front of both, for a time no recorded level is within the present-level test of; or a
point is put in front of one level of each history, where no recorded point matches `focus`;
or one recorded value and one recorded residual are overwritten; or nothing changes. -/
inductive HistoryStep [Sub P] (cfg : Config K P) (t : K) (focus : P) (s s' : State K P) : Prop
  | create (a b : K) :
      (∀ lvl ∈ s.ptsTimeVlu_, ¬ t - lvl.1 < cfg.epsilon) →
      (∀ lvl ∈ s.ptsTimeRes_, ¬ t - lvl.1 < cfg.epsilon) →
      s'.ptsTimeVlu_ = (t, [(focus, a)]) :: s.ptsTimeVlu_ →
      s'.ptsTimeRes_ = (t, [(focus, b)]) :: s.ptsTimeRes_ → HistoryStep cfg t focus s s'
  | insert (i pri : Nat) (present presentRes : K × List (P × K)) (a b : K) :
      s.ptsTimeVlu_[i]? = some present → s.ptsTimeRes_[pri]? = some presentRes →
      find_point cfg focus present.2 = none → find_point cfg focus presentRes.2 = none →
      s'.ptsTimeVlu_ = assign_at (fun l => (l.1, (focus, a) :: l.2)) i s.ptsTimeVlu_ →
      s'.ptsTimeRes_ = assign_at (fun l => (l.1, (focus, b) :: l.2)) pri s.ptsTimeRes_ →
      HistoryStep cfg t focus s s'
  | overwrite (i pri k ri : Nat) (a b : K) :
      s'.ptsTimeVlu_
        = assign_at (fun l => (l.1, assign_at (fun c => (c.1, a)) k l.2)) i s.ptsTimeVlu_ →
      s'.ptsTimeRes_
        = assign_at (fun l => (l.1, assign_at (fun c => (c.1, b)) ri l.2)) pri s.ptsTimeRes_ →
      HistoryStep cfg t focus s s'
  | unchanged :
      s'.ptsTimeVlu_ = s.ptsTimeVlu_ → s'.ptsTimeRes_ = s.ptsTimeRes_ →
      HistoryStep cfg t focus s s'

/-- The two histories of `s'` are those of `s`. -/
def same_history (s s' : State K P) : Prop :=
  s'.ptsTimeVlu_ = s.ptsTimeVlu_ ∧ s'.ptsTimeRes_ = s.ptsTimeRes_

/-- The level times of both histories decrease from `begin()` by at least `epsilon` from one
level to any later one. -/
def history_ordered (cfg : Config K P) (s : State K P) : Prop :=
  (s.ptsTimeVlu_.map Prod.fst).Pairwise (fun a b => b + cfg.epsilon ≤ a) ∧
  (s.ptsTimeRes_.map Prod.fst).Pairwise (fun a b => b + cfg.epsilon ≤ a)

/-- No two points of the list are within `epsilon` of each other in squared distance. -/
def points_distinct [Sub P] (cfg : Config K P) (pts : List (P × K)) : Prop :=
  (pts.map Prod.fst).Pairwise
    (fun p q => ¬ cfg.normsq (p - q) < cfg.epsilon ∧ ¬ cfg.normsq (q - p) < cfg.epsilon)

/-- Every level of both histories holds pairwise distinct points. -/
def history_distinct [Sub P] (cfg : Config K P) (s : State K P) : Prop :=
  (∀ lvl ∈ s.ptsTimeVlu_, points_distinct cfg lvl.2) ∧
  (∀ lvl ∈ s.ptsTimeRes_, points_distinct cfg lvl.2)

/-- The engine `algo_aitken(1/2, 1)` constructed with the warm-start residual norm `1` and no
warm-start values, after the queries `(1, 0, 0)` and `(1, 1, 8)`: level `1` holds two
points. -/
def stateTwoPoints : State ℚ ℚ :=
  { initUndRelxFac_ := 1 / 2
    undRelxFacMax_ := 1
    undRelxFac_ := [(1, 1 / 2)]
    residualL2Norm_ := [(-10000, (0, 1))]
    ptsTimeVlu_ := [(1, [(1, 0), (0, 0)])]
    ptsTimeRes_ := [(1, [(1, 8), (0, 0)])] }

/-- A state in which level `2` holds the residuals `4` and `3` and its cached norm entry has
the count `1` and the norm `3`; the head level `3` holds one residual. -/
def stateStaleLevel : State ℚ ℚ :=
  { initUndRelxFac_ := 1 / 2
    undRelxFacMax_ := 1
    undRelxFac_ := [(2, 1 / 2), (1, 1 / 2)]
    residualL2Norm_ := [(2, (1, 3)), (1, (1, 0))]
    ptsTimeVlu_ := [(3, [(0, 0)]), (2, [(1, 0), (0, 0)]), (1, [(0, 0)])]
    ptsTimeRes_ := [(3, [(0, 1)]), (2, [(1, 4), (0, 3)]), (1, [(0, 0)])] }

/-- A state in which the head level `2` holds the residuals `4` and `3` and its cached norm
entry has the count `1` and the norm `3`; a factor is stored for time `2`. -/
def stateStaleHead : State ℚ ℚ :=
  { initUndRelxFac_ := 1 / 2
    undRelxFacMax_ := 1
    undRelxFac_ := [(2, 1 / 2)]
    residualL2Norm_ := [(2, (1, 3)), (1, (2, 0)), (0, (0, 7))]
    ptsTimeVlu_ := [(2, [(1, 0), (0, 0)]), (1, [(0, 0)])]
    ptsTimeRes_ := [(2, [(1, 4), (0, 3)]), (1, [(0, 0)])] }

/-- The state `stateStaleHead` after `update_undRelxFac 3`. -/
def stateStaleHeadRefreshed : State ℚ ℚ :=
  { initUndRelxFac_ := 1 / 2
    undRelxFacMax_ := 1
    undRelxFac_ := [(3, 0), (2, 1 / 2)]
    residualL2Norm_ := [(2, (1, 5)), (1, (2, 0)), (0, (0, 7))]
    ptsTimeVlu_ := [(2, [(1, 0), (0, 0)]), (1, [(0, 0)])]
    ptsTimeRes_ := [(2, [(1, 4), (0, 3)]), (1, [(0, 0)])] }

/-- The test configuration with a tolerance of zero, the `epsilon()` of an integer type. -/
def cfgZeroTolerance : Config ℚ ℚ :=
  { epsilon := 0
    max := 10000
    lowest := -10000
    sqrt := sqrtQ
    normsq := fun x => x * x }

/-- Number of cached norm entries with a time below `t`. -/
def norms_below (s : State K P) (t : K) : Nat :=
  (s.residualL2Norm_.map Prod.fst).countP (fun T => decide (T < t))

/-- The times of the cached norms of `s'` are those of `s`. -/
def same_norm_times (s s' : State K P) : Prop :=
  s'.residualL2Norm_.map Prod.fst = s.residualL2Norm_.map Prod.fst

end Vocabulary

/-! ## Lookups and assignments -/

section Lemmas

variable {K P : Type} [LinearOrderedField K]

theorem find_if_some_get {α : Type} (p : α → Bool) :
    ∀ (l : List α) (i : Nat), find_if p l = some i → ∃ a, l[i]? = some a ∧ p a = true
  | [], i, h => by simp [find_if] at h
  | a :: l, i, h => by
    by_cases hp : p a = true
    · simp [find_if, hp] at h
      subst h
      exact ⟨a, by simp, hp⟩
    · simp [find_if, hp] at h
      obtain ⟨k, hk, rfl⟩ := h
      obtain ⟨b, hb, hpb⟩ := find_if_some_get p l k hk
      exact ⟨b, by simpa using hb, hpb⟩

theorem length_assign_at {α : Type} (f : α → α) :
    ∀ (i : Nat) (l : List α), (assign_at f i l).length = l.length
  | _, [] => by simp [assign_at]
  | 0, a :: l => by simp [assign_at]
  | i + 1, a :: l => by simp [assign_at, length_assign_at f i l]

/-- In a vector kept most-recent-first (times strictly decreasing from `begin()`), the lookup
`b.first < t` returns the entry of the greatest time below `t`. -/
theorem find_if_lt_greatest {β : Type} (t : K) :
    ∀ (l : List (K × β)) (i : Nat) (e : K × β), l.Pairwise (fun a b => b.1 < a.1) →
      find_if (fun b => decide (b.1 < t)) l = some i → l[i]? = some e →
      e.1 < t ∧ ∀ b ∈ l, b.1 < t → b.1 ≤ e.1
  | [], i, e, _, h, _ => by simp [find_if] at h
  | a :: l, i, e, hs, h, he => by
    rw [List.pairwise_cons] at hs
    by_cases ha : a.1 < t
    · simp [find_if, ha] at h
      subst h
      simp at he
      subst he
      refine ⟨ha, ?_⟩
      intro b hb _
      rcases List.mem_cons.mp hb with rfl | hb
      · exact le_refl _
      · exact le_of_lt (hs.1 b hb)
    · simp [find_if, ha] at h
      obtain ⟨k, hk, rfl⟩ := h
      simp at he
      obtain ⟨h1, h2⟩ := find_if_lt_greatest t l k e hs.2 hk he
      refine ⟨h1, ?_⟩
      intro b hb hbt
      rcases List.mem_cons.mp hb with rfl | hb
      · exact absurd hbt ha
      · exact h2 b hb hbt

theorem refresh_norm_up_to_date (cfg : Config K P)
    (recurse : State K P → K → Except Err (State K P)) (s : State K P) (i : Nat)
    (h : norm_up_to_date cfg s i) : refresh_norm cfg recurse s i = .ok s := by
  obtain ⟨nm, j, lvl, h1, h2, h3, h4⟩ := h
  simp [refresh_norm, h1, h2, h3, h4]

theorem map_fst_assign_at {α β : Type} (f : α × β → α × β) (hf : ∀ a, (f a).1 = a.1) :
    ∀ (i : Nat) (l : List (α × β)), (assign_at f i l).map Prod.fst = l.map Prod.fst
  | _, [] => by simp [assign_at]
  | 0, a :: l => by simp [assign_at, hf]
  | i + 1, a :: l => by simp [assign_at, map_fst_assign_at f hf i l]

theorem mem_assign_at_index {α : Type} (f : α → α) :
    ∀ (i : Nat) (l : List α) (b : α), b ∈ assign_at f i l →
      b ∈ l ∨ ∃ a, l[i]? = some a ∧ b = f a
  | _, [], b, h => by simp [assign_at] at h
  | 0, a :: l, b, h => by
    simp only [assign_at, List.mem_cons] at h
    rcases h with h | h
    · exact Or.inr ⟨a, by simp, h⟩
    · exact Or.inl (by simp [h])
  | i + 1, a :: l, b, h => by
    simp only [assign_at, List.mem_cons] at h
    rcases h with h | h
    · exact Or.inl (by simp [h])
    · rcases mem_assign_at_index f i l b h with h | ⟨c, hc, hb⟩
      · exact Or.inl (by simp [h])
      · exact Or.inr ⟨c, by simpa using hc, hb⟩

/-! ## Cold start -/

/-- C2. Cold start: on an engine constructed without warm-start values and without a
warm-start residual norm, the first call `relaxation t focus filteredValue` returns
`undRelxFac * filteredValue` and leaves exactly one level `t` with that value and the residual
`filteredValue - undRelxFac * filteredValue` for `focus`, and the factor `undRelxFac` for
`t`. -/
theorem cold_start_first_query [Sub P] (cfg : Config K P)
    (undRelxFac undRelxFacMax indeterminate t : K) (focus : P) (filteredValue : K)
    (heps : 0 < cfg.epsilon) :
    relaxation cfg (algo_aitken cfg undRelxFac undRelxFacMax [] 0 indeterminate) t focus
        filteredValue
      = .ok (undRelxFac * filteredValue,
          { initUndRelxFac_ := undRelxFac
            undRelxFacMax_ := indeterminate
            undRelxFac_ := [(t, undRelxFac)]
            residualL2Norm_ := []
            ptsTimeVlu_ := [(t, [(focus, undRelxFac * filteredValue)])]
            ptsTimeRes_ := [(t, [(focus, filteredValue - undRelxFac * filteredValue)])] }) := by
  simp [relaxation, relaxation_first, algo_aitken, calculate_relaxed_value,
    calculate_point_residual, update_undRelxFac, update_undRelxFac_fuel, find_NM2, find_if,
    store_factor, assign_at, heps]

theorem cold_start_first_query_witness :
    relaxation cfgQ (algo_aitken cfgQ (1 / 2) 1 [] 0 1) 1 0 2
      = .ok ((1 / 2 : ℚ) * 2,
          { initUndRelxFac_ := 1 / 2
            undRelxFacMax_ := 1
            undRelxFac_ := [(1, 1 / 2)]
            residualL2Norm_ := []
            ptsTimeVlu_ := [(1, [(0, (1 / 2 : ℚ) * 2)])]
            ptsTimeRes_ := [(1, [(0, 2 - (1 / 2 : ℚ) * 2)])] }) :=
  cold_start_first_query cfgQ (1 / 2) 1 1 1 0 2 (by norm_num [cfgQ])

/-! ## Magnitude of the clamp -/

theorem abs_sign_le_one (x : K) : |((sign x : Int) : K)| ≤ 1 := by
  unfold sign
  split_ifs <;> simp

theorem abs_calculate_aitken_constraint_le (m x : K) (hm : 0 ≤ m) :
    |calculate_aitken_constraint m x| ≤ m := by
  unfold calculate_aitken_constraint
  have h0 : 0 ≤ min |x| m := le_min (abs_nonneg x) hm
  rw [abs_mul, abs_of_nonneg h0]
  calc |((sign x : Int) : K)| * min |x| m ≤ 1 * min |x| m :=
        mul_le_mul_of_nonneg_right (abs_sign_le_one x) h0
    _ = min |x| m := one_mul _
    _ ≤ m := min_le_right _ _

variable [Sub P]

theorem N2_selected_step (cfg : Config K P) (focus : P) (l : List (P × K)) (st : N2 K)
    (b : P × K) (hb : cfg.normsq (focus - b.1) < cfg.max) (h : N2_selected cfg focus l st) :
    N2_selected cfg focus (l ++ [b]) (N2_step cfg focus st b) := by
  rcases h with ⟨rfl, rfl⟩ | ⟨b1, rfl, rfl⟩ | ⟨b1, b2, rest, hperm, rfl, h12, hrest⟩
  · right; left
    exact ⟨b, rfl, by simp [N2_step, hb]⟩
  · right; right
    by_cases h1 : cfg.normsq (focus - b.1) < cfg.normsq (focus - b1.1)
    · exact ⟨b, b1, [], List.Perm.swap _ _ _, by simp [N2_step, h1], le_of_lt h1, by simp⟩
    · exact ⟨b1, b, [], List.Perm.refl _, by simp [N2_step, h1, hb], not_lt.mp h1, by simp⟩
  · right; right
    have hcons : (l ++ [b]).Perm (b :: b1 :: b2 :: rest) :=
      (List.perm_append_comm).trans (List.Perm.cons b hperm)
    by_cases h1 : cfg.normsq (focus - b.1) < cfg.normsq (focus - b1.1)
    · refine ⟨b, b1, b2 :: rest, hcons, by simp [N2_step, h1], le_of_lt h1, ?_⟩
      intro c hc
      rcases List.mem_cons.mp hc with rfl | hc
      · exact h12
      · exact le_trans h12 (hrest c hc)
    · by_cases h2 : cfg.normsq (focus - b.1) < cfg.normsq (focus - b2.1)
      · refine ⟨b1, b, b2 :: rest, hcons.trans (List.Perm.swap _ _ _),
          by simp [N2_step, h1, h2], not_lt.mp h1, ?_⟩
        intro c hc
        rcases List.mem_cons.mp hc with rfl | hc
        · exact le_of_lt h2
        · exact le_trans (le_of_lt h2) (hrest c hc)
      · refine ⟨b1, b2, b :: rest, ?_, by simp [N2_step, h1, h2], h12, ?_⟩
        · refine hcons.trans ((List.Perm.swap _ _ _).trans (List.Perm.cons b1 ?_))
          exact List.Perm.swap _ _ _
        · intro c hc
          rcases List.mem_cons.mp hc with rfl | hc
          · exact not_lt.mp h2
          · exact hrest c hc

theorem N2_selected_foldl (cfg : Config K P) (focus : P) :
    ∀ (pts l : List (P × K)) (st : N2 K),
      (∀ b ∈ pts, cfg.normsq (focus - b.1) < cfg.max) → N2_selected cfg focus l st →
      N2_selected cfg focus (l ++ pts) (pts.foldl (N2_step cfg focus) st)
  | [], l, st, _, h => by simpa using h
  | b :: pts, l, st, hmax, h => by
    have hstep := N2_selected_step cfg focus l st b (hmax b (by simp)) h
    have := N2_selected_foldl cfg focus pts (l ++ [b]) _
      (fun c hc => hmax c (by simp [hc])) hstep
    simpa using this

theorem N2_selected_loop (cfg : Config K P) (focus : P) (pts : List (P × K))
    (hmax : ∀ b ∈ pts, cfg.normsq (focus - b.1) < cfg.max) :
    N2_selected cfg focus pts (N2_loop cfg focus pts) := by
  have := N2_selected_foldl cfg focus pts [] _ hmax (Or.inl ⟨rfl, rfl⟩)
  simpa [N2_loop] using this

theorem find_if_none {α : Type} (p : α → Bool) :
    ∀ (l : List α), (∀ a ∈ l, p a = false) → find_if p l = none
  | [], _ => rfl
  | a :: l, h => by
    simp [find_if, h a (by simp), find_if_none p l (fun b hb => h b (by simp [hb]))]


/-- C8. Nearest-neighbour extrapolation: on a level with at least two recorded points, none of
them matching the query point `focus` and all at a squared distance below `max`, the selection
loop ends with the nearest recorded point `b1` (squared distance `d1`) and the second nearest
`b2` (squared distance `d2`, `d1 ≤ d2`, no other point nearer than `d2`), the prior value is
`(value1 * r2 + value2 * r1) / (r1 + r2)` with `r1 = sqrt d1` and `r2 = sqrt d2`, and the
weight `r2 / (r1 + r2)` of the nearer point is at least the weight `r1 / (r1 + r2)` of the
other one, for a `sqrt` that is non-negative and monotone on the squared distances of the
level. -/
theorem nearest_neighbour_extrapolation (cfg : Config K P) (focus : P) (pts : List (P × K))
    (hlen : 2 ≤ pts.length)
    (hnomatch : ∀ b ∈ pts, ¬ cfg.normsq (focus - b.1) < cfg.epsilon)
    (hmax : ∀ b ∈ pts, cfg.normsq (focus - b.1) < cfg.max)
    (hnonneg : ∀ b ∈ pts, 0 ≤ cfg.sqrt (cfg.normsq (focus - b.1)))
    (hmono : ∀ b ∈ pts, ∀ c ∈ pts, cfg.normsq (focus - b.1) ≤ cfg.normsq (focus - c.1) →
      cfg.sqrt (cfg.normsq (focus - b.1)) ≤ cfg.sqrt (cfg.normsq (focus - c.1))) :
    ∃ b1 b2 rest, pts.Perm (b1 :: b2 :: rest) ∧
      N2_loop cfg focus pts
        = ⟨cfg.normsq (focus - b1.1), cfg.normsq (focus - b2.1), b1.2, b2.2⟩ ∧
      cfg.normsq (focus - b1.1) ≤ cfg.normsq (focus - b2.1) ∧
      (∀ b ∈ rest, cfg.normsq (focus - b2.1) ≤ cfg.normsq (focus - b.1)) ∧
      resolve_old cfg focus pts
        = .ok ((b1.2 * cfg.sqrt (cfg.normsq (focus - b2.1))
                  + b2.2 * cfg.sqrt (cfg.normsq (focus - b1.1)))
                / (cfg.sqrt (cfg.normsq (focus - b1.1))
                    + cfg.sqrt (cfg.normsq (focus - b2.1)))) ∧
      cfg.sqrt (cfg.normsq (focus - b1.1))
          / (cfg.sqrt (cfg.normsq (focus - b1.1)) + cfg.sqrt (cfg.normsq (focus - b2.1)))
        ≤ cfg.sqrt (cfg.normsq (focus - b2.1))
          / (cfg.sqrt (cfg.normsq (focus - b1.1)) + cfg.sqrt (cfg.normsq (focus - b2.1))) := by
  rcases N2_selected_loop cfg focus pts hmax with
    ⟨rfl, _⟩ | ⟨b1, rfl, _⟩ | ⟨b1, b2, rest, hperm, hloop, h12, hrest⟩
  · simp at hlen
  · simp at hlen
  · have hb1 : b1 ∈ pts := hperm.mem_iff.mpr (by simp)
    have hb2 : b2 ∈ pts := hperm.mem_iff.mpr (by simp)
    refine ⟨b1, b2, rest, hperm, hloop, h12, hrest, ?_, ?_⟩
    · have hnone : find_point cfg focus pts = none :=
        find_if_none _ _ (fun a ha => by simpa using hnomatch a ha)
      simp [resolve_old, hnone, N2_linear, hloop]
    · exact div_le_div_of_nonneg_right (hmono b1 hb1 b2 hb2 h12)
        (add_nonneg (hnonneg b1 hb1) (hnonneg b2 hb2))

theorem sqrtQ_one : sqrtQ 1 = 1 := by decide!

theorem sqrtQ_four : sqrtQ 4 = 2 := by decide!

theorem sqrtQ_nine : sqrtQ 9 = 3 := by decide!

theorem nearest_neighbour_extrapolation_witness :
    ∃ b1 b2 rest, [((3 : ℚ), (30 : ℚ)), (1, 10), (2, 20)].Perm (b1 :: b2 :: rest) ∧
      N2_loop cfgQ 0 [(3, 30), (1, 10), (2, 20)]
        = ⟨cfgQ.normsq (0 - b1.1), cfgQ.normsq (0 - b2.1), b1.2, b2.2⟩ ∧
      cfgQ.normsq (0 - b1.1) ≤ cfgQ.normsq (0 - b2.1) ∧
      (∀ b ∈ rest, cfgQ.normsq (0 - b2.1) ≤ cfgQ.normsq (0 - b.1)) ∧
      resolve_old cfgQ 0 [(3, 30), (1, 10), (2, 20)]
        = .ok ((b1.2 * cfgQ.sqrt (cfgQ.normsq (0 - b2.1))
                  + b2.2 * cfgQ.sqrt (cfgQ.normsq (0 - b1.1)))
                / (cfgQ.sqrt (cfgQ.normsq (0 - b1.1))
                    + cfgQ.sqrt (cfgQ.normsq (0 - b2.1)))) ∧
      cfgQ.sqrt (cfgQ.normsq (0 - b1.1))
          / (cfgQ.sqrt (cfgQ.normsq (0 - b1.1)) + cfgQ.sqrt (cfgQ.normsq (0 - b2.1)))
        ≤ cfgQ.sqrt (cfgQ.normsq (0 - b2.1))
          / (cfgQ.sqrt (cfgQ.normsq (0 - b1.1)) + cfgQ.sqrt (cfgQ.normsq (0 - b2.1))) :=
  nearest_neighbour_extrapolation cfgQ 0 [(3, 30), (1, 10), (2, 20)] (by simp)
    (by intro b hb; simp at hb; rcases hb with rfl | rfl | rfl <;> norm_num [cfgQ])
    (by intro b hb; simp at hb; rcases hb with rfl | rfl | rfl <;> norm_num [cfgQ])
    (by
      intro b hb
      simp at hb
      rcases hb with rfl | rfl | rfl <;>
        norm_num [cfgQ, sqrtQ_one, sqrtQ_four, sqrtQ_nine])
    (by
      intro b hb c hc
      simp at hb hc
      rcases hb with rfl | rfl | rfl <;> rcases hc with rfl | rfl | rfl <;>
        norm_num [cfgQ, sqrtQ_one, sqrtQ_four, sqrtQ_nine])

theorem cache_previous_norm_invalid (s : State K P) :
    cache_previous_norm s = .error .InvalidIterator := by
  unfold cache_previous_norm
  split <;> rfl

/-- The branch of `relaxation` for a new level after a previous one never returns: whatever the
state and the arguments, it ends in an assertion that fails, in the dereference of an `end()`
iterator or in the use of an invalidated iterator. -/
theorem relaxation_new_level_error (cfg : Config K P) (s : State K P) (t : K) (focus : P)
    (v : K) (j : Nat) (presentResIter previousResIter : Option Nat) :
    ∃ e, relaxation_new_level cfg s t focus v j presentResIter previousResIter = .error e := by
  unfold relaxation_new_level
  simp only [cache_previous_norm_invalid]
  repeat' split
  all_goals exact ⟨_, rfl⟩

/-- C10 (amended). On a level with exactly one recorded point `(q, w)`, not matching the query
point and at a squared distance `d` below `max`, the extrapolation does not fail: the second
selection keeps its start values, `max` and `0`, and the prior value is
`(w * sqrt max + 0 * sqrt d) / (sqrt d + sqrt max)`. -/
theorem single_point_extrapolation (cfg : Config K P) (focus q : P) (w : K)
    (hnomatch : ¬ cfg.normsq (focus - q) < cfg.epsilon)
    (hmax : cfg.normsq (focus - q) < cfg.max) :
    resolve_old cfg focus [(q, w)]
      = .ok ((w * cfg.sqrt cfg.max + 0 * cfg.sqrt (cfg.normsq (focus - q)))
              / (cfg.sqrt (cfg.normsq (focus - q)) + cfg.sqrt cfg.max)) := by
  simp [resolve_old, find_point, find_if, hnomatch, N2_linear, N2_loop, N2_step, hmax]

theorem single_point_extrapolation_witness :
    resolve_old cfgQ 1 [((0 : ℚ), (2 : ℚ))]
      = .ok ((2 * cfgQ.sqrt cfgQ.max + 0 * cfgQ.sqrt (cfgQ.normsq (1 - 0)))
              / (cfgQ.sqrt (cfgQ.normsq (1 - 0)) + cfgQ.sqrt cfgQ.max)) :=
  single_point_extrapolation cfgQ 1 0 2 (by norm_num [cfgQ]) (by norm_num [cfgQ])

/-- C10 (as stated, refuted). The previous level holds the single point `0` with value `2`;
the query point `1` matches no recorded point, and the extrapolation returns the prior value
`200/101`. -/
theorem insufficient_history_counterexample :
    find_point cfgQ 1 [((0 : ℚ), (2 : ℚ))] = none ∧
      resolve_old cfgQ 1 [((0 : ℚ), (2 : ℚ))] = .ok (200 / 101) := by
  constructor <;> decide!


/-! ## Effect of a call on the histories -/

/-- A relation between states that holds for the stores of a factor and for the assignments of
a cached norm, and is reflexive and transitive, holds between a state and the result of the
check of a cached norm, when it holds for the recursive call. -/
theorem refresh_norm_frame (cfg : Config K P) (R : State K P → State K P → Prop)
    (hrefl : ∀ s, R s s) (htrans : ∀ a b c, R a b → R b c → R a c)
    (hnorm : ∀ (s : State K P) (k : Nat) (x : K),
      R s { s with residualL2Norm_ :=
        (assign_at (fun b => (b.1, (b.2.1, x))) k s.residualL2Norm_) })
    (recurse : State K P → K → Except Err (State K P))
    (hrec : ∀ s t s', recurse s t = .ok s' → R s s')
    (s : State K P) (k : Nat) (s' : State K P)
    (h : refresh_norm cfg recurse s k = .ok s') : R s s' := by
  unfold refresh_norm at h
  split at h
  · simp at h
  · split at h
    · simp at h
    · split at h
      · simp at h
      · split at h
        · exact htrans _ _ _ (hnorm s k _) (hrec _ _ _ h)
        · simp only [Except.ok.injEq] at h
          exact h ▸ hrefl s

/-- The same for `update_undRelxFac`, at every recursion budget. -/
theorem update_fuel_frame (cfg : Config K P) (R : State K P → State K P → Prop)
    (hrefl : ∀ s, R s s) (htrans : ∀ a b c, R a b → R b c → R a c)
    (hstore : ∀ (s : State K P) (present : Option Nat) (t x : K),
      R s (store_factor s present t x))
    (hnorm : ∀ (s : State K P) (k : Nat) (x : K),
      R s { s with residualL2Norm_ :=
        (assign_at (fun b => (b.1, (b.2.1, x))) k s.residualL2Norm_) }) :
    ∀ (fuel : Nat) (s : State K P) (t : K) (s' : State K P),
      update_undRelxFac_fuel cfg fuel s t = .ok s' → R s s'
  | 0, s, t, s', h => by simp [update_undRelxFac_fuel] at h
  | fuel + 1, s, t, s', h => by
    have ih := update_fuel_frame cfg R hrefl htrans hstore hnorm fuel
    rw [update_undRelxFac_fuel] at h
    simp only at h
    split at h
    · simp at h
    · simp only [Except.ok.injEq] at h
      subst h
      exact hstore s _ t _
    · split at h
      · simp at h
      · simp at h
      · split at h
        · simp at h
        · rename_i s2 hs2
          have hs2w : R s s2 := by
            split at hs2
            · split at hs2
              · simp at hs2
              · rename_i s1 hs1
                exact htrans _ _ _
                  (refresh_norm_frame cfg R hrefl htrans hnorm _ ih _ _ _ hs1)
                  (refresh_norm_frame cfg R hrefl htrans hnorm _ ih _ _ _ hs2)
            · simp only [Except.ok.injEq] at hs2
              exact hs2 ▸ hrefl s
          repeat' (split at h)
          all_goals first
            | (simp at h; done)
            | (simp only [Except.ok.injEq] at h
               subst h
               exact htrans _ _ _ hs2w (hstore s2 _ t _))

theorem same_history_store_factor (s : State K P) (present : Option Nat) (t x : K) :
    same_history s (store_factor s present t x) := by
  cases present <;> exact ⟨rfl, rfl⟩

theorem same_history_trans {s1 s2 s3 : State K P} (h12 : same_history s1 s2)
    (h23 : same_history s2 s3) : same_history s1 s3 :=
  ⟨h23.1.trans h12.1, h23.2.trans h12.2⟩

theorem same_history_update_fuel (cfg : Config K P) (fuel : Nat) (s : State K P) (t : K)
    (s' : State K P) (h : update_undRelxFac_fuel cfg fuel s t = .ok s') : same_history s s' :=
  update_fuel_frame cfg same_history (fun _ => ⟨rfl, rfl⟩) (fun _ _ _ => same_history_trans)
    same_history_store_factor (fun _ _ _ => ⟨rfl, rfl⟩) fuel s t s' h

theorem same_history_calculate_relaxed_value (cfg : Config K P)
    (s : State K P) (t v o r : K) (s' : State K P)
    (h : calculate_relaxed_value cfg s t v o = .ok (r, s')) : same_history s s' := by
  unfold calculate_relaxed_value at h
  split at h
  · simp at h
  · rename_i s1 h1
    split at h
    · simp at h
    · split at h
      · simp at h
      · simp only [Except.ok.injEq, Prod.mk.injEq] at h
        exact h.2 ▸ same_history_update_fuel cfg _ _ _ _ h1

theorem same_history_calculate_point_residual (cfg : Config K P)
    (s : State K P) (t v o r : K) (s' : State K P)
    (h : calculate_point_residual cfg s t v o = .ok (r, s')) : same_history s s' := by
  unfold calculate_point_residual at h
  split at h
  · simp at h
  · rename_i r1 s1 h1
    simp only [Except.ok.injEq, Prod.mk.injEq] at h
    exact h.2 ▸ same_history_calculate_relaxed_value cfg _ _ _ _ _ _ h1

theorem find_if_eq_none {α : Type} (p : α → Bool) :
    ∀ (l : List α), find_if p l = none → ∀ a ∈ l, p a = false
  | [], _, a, ha => by simp at ha
  | b :: l, h, a, ha => by
    by_cases hp : p b = true
    · simp [find_if, hp] at h
    · simp [find_if, hp] at h
      rcases List.mem_cons.mp ha with rfl | ha
      · simpa using hp
      · exact find_if_eq_none p l h a ha

theorem historyStep_relaxation_first [Sub P] (cfg : Config K P) (s : State K P) (t : K)
    (focus : P) (v r : K) (s' : State K P) (hV : s.ptsTimeVlu_ = [])
    (h : relaxation_first cfg s t focus v = .ok (r, s')) : HistoryStep cfg t focus s s' := by
  unfold relaxation_first at h
  split at h
  · simp at h
  · rename_i hR
    simp only at h
    split at h
    · simp at h
    · rename_i vlu s1 h1
      split at h
      · simp at h
      · rename_i res s3 h3
        have f1 := same_history_calculate_relaxed_value cfg _ _ _ _ _ _ h1
        have f3 := same_history_calculate_point_residual cfg _ _ _ _ _ _ h3
        have f5 := same_history_calculate_relaxed_value cfg _ _ _ _ _ _ h
        have hR0 : s.ptsTimeRes_ = [] := by
          cases hl : s.ptsTimeRes_ with
          | nil => rfl
          | cons a l => simp [hl] at hR
        exact HistoryStep.create vlu res (by simp [hV]) (by simp [hR0])
          (f5.1.trans (f3.1.trans (congrArg _ f1.1)))
          (f5.2.trans (congrArg _ (f3.2.trans f1.2)))

theorem historyStep_relaxation_present_only [Sub P] (cfg : Config K P) (s : State K P) (t : K)
    (focus : P) (v : K) (presentIter : Nat) (presentResIter : Option Nat)
    (r : K) (s' : State K P)
    (h : relaxation_present_only cfg s focus v presentIter presentResIter = .ok (r, s')) :
    HistoryStep cfg t focus s s' := by
  unfold relaxation_present_only at h
  split at h
  · simp at h
  · simp at h
  · rename_i present pri hpresent
    split at h
    · simp at h
    · rename_i presentRes hpres
      split at h
      · simp at h
      · split at h
        · simp at h
        · simp only at h
          split at h
          · rename_i hnone
            split at h
            · simp at h
            · rename_i hresnone
              simp only [Except.ok.injEq, Prod.mk.injEq] at h
              obtain ⟨_, hs⟩ := h
              subst hs
              exact HistoryStep.insert presentIter pri present presentRes _ _ hpresent hpres
                hnone (by simpa using hresnone) rfl rfl
          · split at h
            · simp at h
            · simp at h
            · split at h
              · simp at h
              · split at h
                · simp at h
                · simp only [Except.ok.injEq, Prod.mk.injEq] at h
                  exact h.2 ▸ HistoryStep.unchanged rfl rfl

theorem historyStep_relaxation_revisit [Sub P] (cfg : Config K P)
    (s : State K P) (t : K) (focus : P) (v : K) (presentIter previousIter : Nat)
    (presentResIter : Option Nat) (r : K) (s' : State K P)
    (h : relaxation_revisit cfg s t focus v presentIter previousIter presentResIter
      = .ok (r, s')) : HistoryStep cfg t focus s s' := by
  unfold relaxation_revisit at h
  split at h
  · simp at h
  · simp at h
  · rename_i present pri hpresent
    split at h
    · simp at h
    · simp at h
    · rename_i presentRes previous hpres hprev
      split at h
      · simp at h
      · split at h
        · simp at h
        · simp only at h
          split at h
          · rename_i hnone
            split at h
            · simp at h
            · rename_i hresnone
              split at h
              · simp at h
              · rename_i vlu s1 h1
                split at h
                · simp at h
                · rename_i res s3 h3
                  have f1 := same_history_calculate_relaxed_value cfg _ _ _ _ _ _ h1
                  have f3 := same_history_calculate_point_residual cfg _ _ _ _ _ _ h3
                  have f5 := same_history_calculate_relaxed_value cfg _ _ _ _ _ _ h
                  exact HistoryStep.insert presentIter pri present presentRes vlu res
                    hpresent hpres hnone (by simpa using hresnone)
                    (f5.1.trans (f3.1.trans (congrArg _ f1.1)))
                    (f5.2.trans (congrArg _ (f3.2.trans f1.2)))
          · rename_i k hk
            split at h
            · simp at h
            · simp at h
            · rename_i vluEntry ri hv hri
              split at h
              · simp at h
              · split at h
                · simp at h
                · split at h
                  · simp at h
                  · rename_i vlu s1 h1
                    split at h
                    · simp at h
                    · rename_i res s3 h3
                      have f1 := same_history_calculate_relaxed_value cfg _ _ _ _ _ _ h1
                      have f3 := same_history_calculate_point_residual cfg _ _ _ _ _ _ h3
                      have f5 := same_history_calculate_relaxed_value cfg _ _ _ _ _ _ h
                      exact HistoryStep.overwrite presentIter pri k ri vlu res
                        (f5.1.trans (f3.1.trans (congrArg _ f1.1)))
                        (f5.2.trans (congrArg _ (f3.2.trans f1.2)))

theorem historyStep_relaxation [Sub P] (cfg : Config K P) (s : State K P) (t : K)
    (focus : P) (v r : K) (s' : State K P)
    (h : relaxation cfg s t focus v = .ok (r, s')) : HistoryStep cfg t focus s s' := by
  unfold relaxation at h
  split at h
  · rename_i hV
    have hV0 : s.ptsTimeVlu_ = [] := by
      cases hl : s.ptsTimeVlu_ with
      | nil => rfl
      | cons a l => simp [hl] at hV
    exact historyStep_relaxation_first cfg s t focus v r s' hV0 h
  · simp only at h
    split at h
    · split at h <;> simp at h
    · exact historyStep_relaxation_present_only cfg s t focus v _ _ r s' h
    · obtain ⟨e, he⟩ := relaxation_new_level_error cfg s t focus v _ _ _
      rw [he] at h
      simp at h
    · exact historyStep_relaxation_revisit cfg s t focus v _ _ _ r s' h

/-! ## States reached from a constructed engine -/

/-- Evaluation of the first call on the cold engine `algo_aitken(1/2, 1)`. -/
theorem relaxation_cold_half :
    relaxation cfgQ (algo_aitken cfgQ (1 / 2) 1 [] 0 1) 1 0 2 = .ok (1, stateOneLevel) := by
  decide!

/-- The level times of the two histories after a step: unchanged, or the query time put in
front of times that are all at least `epsilon` below it. -/
theorem historyStep_times [Sub P] (cfg : Config K P) (t : K) (focus : P) (s s' : State K P)
    (h : HistoryStep cfg t focus s s') :
    (s'.ptsTimeVlu_.map Prod.fst = s.ptsTimeVlu_.map Prod.fst ∨
      (s'.ptsTimeVlu_.map Prod.fst = t :: s.ptsTimeVlu_.map Prod.fst ∧
        ∀ T ∈ s.ptsTimeVlu_.map Prod.fst, T + cfg.epsilon ≤ t)) ∧
    (s'.ptsTimeRes_.map Prod.fst = s.ptsTimeRes_.map Prod.fst ∨
      (s'.ptsTimeRes_.map Prod.fst = t :: s.ptsTimeRes_.map Prod.fst ∧
        ∀ T ∈ s.ptsTimeRes_.map Prod.fst, T + cfg.epsilon ≤ t)) := by
  cases h with
  | create a b hV hR eV eR =>
    refine ⟨Or.inr ⟨by simp [eV], ?_⟩, Or.inr ⟨by simp [eR], ?_⟩⟩
    · intro T hT
      obtain ⟨lvl, hl, rfl⟩ := List.mem_map.mp hT
      have := hV lvl hl
      linarith [not_lt.mp this]
    · intro T hT
      obtain ⟨lvl, hl, rfl⟩ := List.mem_map.mp hT
      have := hR lvl hl
      linarith [not_lt.mp this]
  | insert i pri present presentRes a b _ _ _ _ eV eR =>
    exact ⟨Or.inl (by rw [eV]; apply map_fst_assign_at; intro _; rfl),
      Or.inl (by rw [eR]; apply map_fst_assign_at; intro _; rfl)⟩
  | overwrite i pri k ri a b eV eR =>
    exact ⟨Or.inl (by rw [eV]; apply map_fst_assign_at; intro _; rfl),
      Or.inl (by rw [eR]; apply map_fst_assign_at; intro _; rfl)⟩
  | unchanged eV eR => exact ⟨Or.inl (by rw [eV]), Or.inl (by rw [eR])⟩

theorem history_ordered_step [Sub P] (cfg : Config K P) (t : K) (focus : P)
    (s s' : State K P) (h : HistoryStep cfg t focus s s') (hs : history_ordered cfg s) :
    history_ordered cfg s' := by
  obtain ⟨hV, hR⟩ := historyStep_times cfg t focus s s' h
  constructor
  · rcases hV with e | ⟨e, hlt⟩
    · unfold history_ordered at hs; rw [e]; exact hs.1
    · rw [e]; exact List.pairwise_cons.mpr ⟨hlt, hs.1⟩
  · rcases hR with e | ⟨e, hlt⟩
    · unfold history_ordered at hs; rw [e]; exact hs.2
    · rw [e]; exact List.pairwise_cons.mpr ⟨hlt, hs.2⟩

theorem history_ordered_reachable [Sub P] (cfg : Config K P) (undRelxFac undRelxFacMax : K)
    (ptsVluInit : List (P × K)) (resL2NormNM1 indeterminate : K) (s : State K P)
    (hreach : Reachable cfg
      (algo_aitken cfg undRelxFac undRelxFacMax ptsVluInit resL2NormNM1 indeterminate) s) :
    history_ordered cfg s := by
  induction hreach with
  | start =>
    constructor
    · by_cases he : ptsVluInit.isEmpty <;> simp [algo_aitken, he]
    · simp [algo_aitken]
  | call s1 s2 t focus v r _ hcall ih =>
    exact history_ordered_step cfg t focus s1 s2
      (historyStep_relaxation cfg s1 t focus v r s2 hcall) ih


theorem reachable_relaxations [Sub P] (cfg : Config K P) (s0 : State K P) :
    ∀ (calls : List (K × P × K)) (s : State K P) (rs : List K) (s' : State K P),
      Reachable cfg s0 s → relaxations cfg s calls = .ok (rs, s') → Reachable cfg s0 s'
  | [], s, rs, s', hs, h => by
    simp only [relaxations, Except.ok.injEq, Prod.mk.injEq] at h
    exact h.2 ▸ hs
  | (t, focus, v) :: rest, s, rs, s', hs, h => by
    simp only [relaxations] at h
    split at h
    · simp at h
    · rename_i r s1 h1
      split at h
      · simp at h
      · rename_i rs2 s2 h2
        simp only [Except.ok.injEq, Prod.mk.injEq] at h
        exact h.2 ▸ reachable_relaxations cfg s0 rest s1 rs2 s2
          (Reachable.call s s1 t focus v r hs h1) h2

theorem pairwise_spaced_lt (eps : K) (heps : 0 < eps) (l : List K)
    (h : l.Pairwise (fun a b => b + eps ≤ a)) : l.Pairwise (fun a b => b < a ∧ b + eps ≤ a) :=
  h.imp (fun hab => ⟨by linarith, hab⟩)

theorem first_below_is_greatest {β : Type} (eps : K) (heps : 0 < eps) (t : K)
    (l : List (K × β)) (h : (l.map Prod.fst).Pairwise (fun a b => b + eps ≤ a)) :
    (∀ i, find_if (fun b => decide (b.1 < t)) l = some i →
      ∃ e, l[i]? = some e ∧ e.1 < t ∧ ∀ b ∈ l, b.1 < t → b.1 ≤ e.1) ∧
    (find_if (fun b => decide (b.1 < t)) l = none ↔ ∀ b ∈ l, ¬ b.1 < t) := by
  have hs : l.Pairwise (fun a b => b.1 < a.1) := by
    rw [List.pairwise_map] at h
    exact h.imp (fun hab => by linarith)
  refine ⟨?_, ?_, ?_⟩
  · intro i hi
    obtain ⟨e, he, _⟩ := find_if_some_get _ _ _ hi
    exact ⟨e, he, find_if_lt_greatest t l i e hs hi he⟩
  · intro hn b hb
    simpa using find_if_eq_none _ _ hn b hb
  · intro hn
    exact find_if_none _ _ (fun b hb => by simpa using hn b hb)

/-- C20. Ordered histories. In every state reachable by calls of `relaxation`, at any query
times, from a constructed engine, the level times of the value history and of the residual
history decrease strictly from `begin()`, any level being at least `epsilon` above every later
one. A call that returns from a state with histories ordered in this way, reachable or not,
leaves them ordered: it leaves the level times as they are or puts the query time in front of
them, and then every recorded level time is at least `epsilon` below it. A level is inserted
(source lines 246 and 252, 106 and 112) only when the present-level lookups find nothing, and
then the query time is at least `epsilon` above every recorded level time, so the histories
with the new level in front are ordered. -/
theorem ordered_history_invariant [Sub P] (cfg : Config K P) (heps : 0 < cfg.epsilon) :
    (∀ (undRelxFac undRelxFacMax : K) (ptsVluInit : List (P × K))
        (resL2NormNM1 indeterminate : K) (s : State K P),
      Reachable cfg
        (algo_aitken cfg undRelxFac undRelxFacMax ptsVluInit resL2NormNM1 indeterminate) s →
      (s.ptsTimeVlu_.map Prod.fst).Pairwise (fun a b => b < a ∧ b + cfg.epsilon ≤ a) ∧
      (s.ptsTimeRes_.map Prod.fst).Pairwise (fun a b => b < a ∧ b + cfg.epsilon ≤ a)) ∧
    (∀ (s : State K P) (t : K) (focus : P) (filteredValue r : K) (s' : State K P),
      history_ordered cfg s → relaxation cfg s t focus filteredValue = .ok (r, s') →
      history_ordered cfg s' ∧
      (s'.ptsTimeVlu_.map Prod.fst = s.ptsTimeVlu_.map Prod.fst ∨
        (s'.ptsTimeVlu_.map Prod.fst = t :: s.ptsTimeVlu_.map Prod.fst ∧
          ∀ T ∈ s.ptsTimeVlu_.map Prod.fst, T + cfg.epsilon ≤ t)) ∧
      (s'.ptsTimeRes_.map Prod.fst = s.ptsTimeRes_.map Prod.fst ∨
        (s'.ptsTimeRes_.map Prod.fst = t :: s.ptsTimeRes_.map Prod.fst ∧
          ∀ T ∈ s.ptsTimeRes_.map Prod.fst, T + cfg.epsilon ≤ t))) ∧
    (∀ (s : State K P) (t : K) (vlu res : List (P × K)),
      history_ordered cfg s →
      find_if (fun b => decide (t - b.1 < cfg.epsilon)) s.ptsTimeVlu_ = none →
      find_if (fun b => decide (t - b.1 < cfg.epsilon)) s.ptsTimeRes_ = none →
      (∀ lvl ∈ s.ptsTimeVlu_, lvl.1 + cfg.epsilon ≤ t) ∧
      (∀ lvl ∈ s.ptsTimeRes_, lvl.1 + cfg.epsilon ≤ t) ∧
      history_ordered cfg
        { s with ptsTimeVlu_ := (t, vlu) :: s.ptsTimeVlu_
                 ptsTimeRes_ := (t, res) :: s.ptsTimeRes_ }) := by
  refine ⟨?_, ?_, ?_⟩
  · intro undRelxFac undRelxFacMax ptsVluInit resL2NormNM1 indeterminate s hreach
    have hord := history_ordered_reachable cfg undRelxFac undRelxFacMax ptsVluInit
      resL2NormNM1 indeterminate s hreach
    exact ⟨pairwise_spaced_lt _ heps _ hord.1, pairwise_spaced_lt _ heps _ hord.2⟩
  · intro s t focus v r s' hord h
    have hstep := historyStep_relaxation cfg s t focus v r s' h
    exact ⟨history_ordered_step cfg t focus s s' hstep hord,
      historyStep_times cfg t focus s s' hstep⟩
  · intro s t vlu res hord hV hR
    have hV' : ∀ lvl ∈ s.ptsTimeVlu_, lvl.1 + cfg.epsilon ≤ t := by
      intro lvl hl
      have := find_if_eq_none _ _ hV lvl hl
      simp only [decide_eq_false_iff_not, not_lt] at this
      linarith
    have hR' : ∀ lvl ∈ s.ptsTimeRes_, lvl.1 + cfg.epsilon ≤ t := by
      intro lvl hl
      have := find_if_eq_none _ _ hR lvl hl
      simp only [decide_eq_false_iff_not, not_lt] at this
      linarith
    refine ⟨hV', hR', ?_, ?_⟩
    · show ((t :: s.ptsTimeVlu_.map Prod.fst)).Pairwise (fun a b => b + cfg.epsilon ≤ a)
      refine List.pairwise_cons.mpr ⟨?_, hord.1⟩
      intro T hT
      obtain ⟨lvl, hl, rfl⟩ := List.mem_map.mp hT
      exact hV' lvl hl
    · show ((t :: s.ptsTimeRes_.map Prod.fst)).Pairwise (fun a b => b + cfg.epsilon ≤ a)
      refine List.pairwise_cons.mpr ⟨?_, hord.2⟩
      intro T hT
      obtain ⟨lvl, hl, rfl⟩ := List.mem_map.mp hT
      exact hR' lvl hl

/-- The level times of `stateTwoLevels` are ordered. -/
theorem history_ordered_two_levels : history_ordered cfgQ stateTwoLevels := by
  unfold history_ordered
  constructor <;> decide!

theorem ordered_history_invariant_witness :
    (0 : ℚ) < cfgQ.epsilon ∧
    ((stateOneLevel.ptsTimeVlu_.map Prod.fst).Pairwise
        (fun a b => b < a ∧ b + cfgQ.epsilon ≤ a) ∧
      (stateOneLevel.ptsTimeRes_.map Prod.fst).Pairwise
        (fun a b => b < a ∧ b + cfgQ.epsilon ≤ a)) ∧
    ((∀ lvl ∈ stateTwoLevels.ptsTimeVlu_, lvl.1 + cfgQ.epsilon ≤ 3) ∧
      (∀ lvl ∈ stateTwoLevels.ptsTimeRes_, lvl.1 + cfgQ.epsilon ≤ 3) ∧
      history_ordered cfgQ
        { stateTwoLevels with
          ptsTimeVlu_ := (3, [(0, 2)]) :: stateTwoLevels.ptsTimeVlu_
          ptsTimeRes_ := (3, [(0, 1)]) :: stateTwoLevels.ptsTimeRes_ }) :=
  ⟨by norm_num [cfgQ],
    (ordered_history_invariant cfgQ (by norm_num [cfgQ])).1 (1 / 2) 1 [] 0 1 stateOneLevel
      (Reachable.call _ _ 1 0 2 1 Reachable.start relaxation_cold_half),
    (ordered_history_invariant cfgQ (by norm_num [cfgQ])).2.2 stateTwoLevels 3 [(0, 2)]
      [(0, 1)] history_ordered_two_levels (by decide!) (by decide!)⟩

/-- C12. Previous-level lookup: in every state whose level times decrease from `begin()` by at
least `epsilon` from one level to any later one, and every state reachable by calls of
`relaxation` from a constructed engine is such a state, for every query time `t` the level the
lookup `b.first < t` returns, in the value history and in the residual history, is a recorded
level of the greatest time below `t`, and the lookup returns `end()` exactly when no recorded
level has a time below `t`. -/
theorem previous_level_lookup [Sub P] (cfg : Config K P) (s : State K P) (t : K)
    (heps : 0 < cfg.epsilon) (hord : history_ordered cfg s) :
    ((∀ i, find_if (fun b => decide (b.1 < t)) s.ptsTimeVlu_ = some i →
        ∃ e, s.ptsTimeVlu_[i]? = some e ∧ e.1 < t ∧
          ∀ b ∈ s.ptsTimeVlu_, b.1 < t → b.1 ≤ e.1) ∧
      (find_if (fun b => decide (b.1 < t)) s.ptsTimeVlu_ = none ↔
        ∀ b ∈ s.ptsTimeVlu_, ¬ b.1 < t)) ∧
    ((∀ i, find_if (fun b => decide (b.1 < t)) s.ptsTimeRes_ = some i →
        ∃ e, s.ptsTimeRes_[i]? = some e ∧ e.1 < t ∧
          ∀ b ∈ s.ptsTimeRes_, b.1 < t → b.1 ≤ e.1) ∧
      (find_if (fun b => decide (b.1 < t)) s.ptsTimeRes_ = none ↔
        ∀ b ∈ s.ptsTimeRes_, ¬ b.1 < t)) ∧
    (∀ (undRelxFac undRelxFacMax : K) (ptsVluInit : List (P × K))
        (resL2NormNM1 indeterminate : K) (s1 : State K P),
      Reachable cfg
        (algo_aitken cfg undRelxFac undRelxFacMax ptsVluInit resL2NormNM1 indeterminate) s1 →
      history_ordered cfg s1) :=
  ⟨first_below_is_greatest _ heps t _ hord.1, first_below_is_greatest _ heps t _ hord.2,
    fun undRelxFac undRelxFacMax ptsVluInit resL2NormNM1 indeterminate s1 hreach =>
      history_ordered_reachable cfg undRelxFac undRelxFacMax ptsVluInit resL2NormNM1
        indeterminate s1 hreach⟩

theorem previous_level_lookup_witness :
    ((∀ i, find_if (fun b => decide (b.1 < (3 / 2 : ℚ))) stateTwoLevels.ptsTimeVlu_ = some i →
        ∃ e, stateTwoLevels.ptsTimeVlu_[i]? = some e ∧ e.1 < 3 / 2 ∧
          ∀ b ∈ stateTwoLevels.ptsTimeVlu_, b.1 < 3 / 2 → b.1 ≤ e.1) ∧
      (find_if (fun b => decide (b.1 < (3 / 2 : ℚ))) stateTwoLevels.ptsTimeVlu_ = none ↔
        ∀ b ∈ stateTwoLevels.ptsTimeVlu_, ¬ b.1 < 3 / 2)) ∧
    ((∀ i, find_if (fun b => decide (b.1 < (3 / 2 : ℚ))) stateTwoLevels.ptsTimeRes_ = some i →
        ∃ e, stateTwoLevels.ptsTimeRes_[i]? = some e ∧ e.1 < 3 / 2 ∧
          ∀ b ∈ stateTwoLevels.ptsTimeRes_, b.1 < 3 / 2 → b.1 ≤ e.1) ∧
      (find_if (fun b => decide (b.1 < (3 / 2 : ℚ))) stateTwoLevels.ptsTimeRes_ = none ↔
        ∀ b ∈ stateTwoLevels.ptsTimeRes_, ¬ b.1 < 3 / 2)) ∧
    history_ordered cfgQ stateOneLevel :=
  ⟨(previous_level_lookup cfgQ stateTwoLevels (3 / 2) (by norm_num [cfgQ])
      history_ordered_two_levels).1,
    (previous_level_lookup cfgQ stateTwoLevels (3 / 2) (by norm_num [cfgQ])
      history_ordered_two_levels).2.1,
    (previous_level_lookup cfgQ stateTwoLevels (3 / 2) (by norm_num [cfgQ])
      history_ordered_two_levels).2.2 (1 / 2) 1 [] 0 1 stateOneLevel
      (Reachable.call _ _ 1 0 2 1 Reachable.start relaxation_cold_half)⟩

theorem points_distinct_cons [Sub P] (cfg : Config K P) (focus : P) (a : K)
    (pts : List (P × K)) (hsymm : ∀ p q : P, cfg.normsq (p - q) = cfg.normsq (q - p))
    (hnone : find_point cfg focus pts = none) (h : points_distinct cfg pts) :
    points_distinct cfg ((focus, a) :: pts) := by
  unfold points_distinct
  rw [List.map_cons, List.pairwise_cons]
  refine ⟨?_, h⟩
  intro q hq
  obtain ⟨b, hb, rfl⟩ := List.mem_map.mp hq
  have hb' : ¬ cfg.normsq (focus - b.1) < cfg.epsilon := by
    simpa using find_if_eq_none _ _ hnone b hb
  exact ⟨hb', by rw [← hsymm]; exact hb'⟩

theorem points_distinct_assign_at [Sub P] (cfg : Config K P) (x : K) (k : Nat)
    (pts : List (P × K)) (h : points_distinct cfg pts) :
    points_distinct cfg (assign_at (fun c => (c.1, x)) k pts) := by
  unfold points_distinct at *
  have e : (assign_at (fun c : P × K => (c.1, x)) k pts).map Prod.fst = pts.map Prod.fst := by
    apply map_fst_assign_at; intro _; rfl
  rw [e]
  exact h

theorem history_distinct_step [Sub P] (cfg : Config K P) (t : K) (focus : P)
    (s s' : State K P) (hsymm : ∀ p q : P, cfg.normsq (p - q) = cfg.normsq (q - p))
    (h : HistoryStep cfg t focus s s') (hs : history_distinct cfg s) :
    history_distinct cfg s' := by
  have single : ∀ a : K, points_distinct cfg [(focus, a)] := by
    intro a; simp [points_distinct]
  cases h with
  | create a b _ _ eV eR =>
    constructor
    · intro lvl hl
      rw [eV] at hl
      rcases List.mem_cons.mp hl with rfl | hl
      · exact single a
      · exact hs.1 lvl hl
    · intro lvl hl
      rw [eR] at hl
      rcases List.mem_cons.mp hl with rfl | hl
      · exact single b
      · exact hs.2 lvl hl
  | insert i pri present presentRes a b hp hpr hn hrn eV eR =>
    constructor
    · intro lvl hl
      rw [eV] at hl
      rcases mem_assign_at_index _ _ _ _ hl with hl | ⟨c, hc, rfl⟩
      · exact hs.1 lvl hl
      · have hcp : c = present := by rw [hp] at hc; exact (Option.some.inj hc).symm
        subst hcp
        exact points_distinct_cons cfg focus a c.2 hsymm hn
          (hs.1 c (List.getElem?_mem hp))
    · intro lvl hl
      rw [eR] at hl
      rcases mem_assign_at_index _ _ _ _ hl with hl | ⟨c, hc, rfl⟩
      · exact hs.2 lvl hl
      · have hcp : c = presentRes := by rw [hpr] at hc; exact (Option.some.inj hc).symm
        subst hcp
        exact points_distinct_cons cfg focus b c.2 hsymm hrn
          (hs.2 c (List.getElem?_mem hpr))
  | overwrite i pri k ri a b eV eR =>
    constructor
    · intro lvl hl
      rw [eV] at hl
      rcases mem_assign_at_index _ _ _ _ hl with hl | ⟨c, hc, rfl⟩
      · exact hs.1 lvl hl
      · exact points_distinct_assign_at cfg a k c.2 (hs.1 c (List.getElem?_mem hc))
    · intro lvl hl
      rw [eR] at hl
      rcases mem_assign_at_index _ _ _ _ hl with hl | ⟨c, hc, rfl⟩
      · exact hs.2 lvl hl
      · exact points_distinct_assign_at cfg b ri c.2 (hs.2 c (List.getElem?_mem hc))
  | unchanged eV eR =>
    constructor
    · intro lvl hl; rw [eV] at hl; exact hs.1 lvl hl
    · intro lvl hl; rw [eR] at hl; exact hs.2 lvl hl

theorem points_distinct_getElem [Sub P] (cfg : Config K P) (pts : List (P × K))
    (h : points_distinct cfg pts) (i j : Nat) (a b : P × K) (hij : i ≠ j)
    (ha : pts[i]? = some a) (hb : pts[j]? = some b) :
    ¬ cfg.normsq (a.1 - b.1) < cfg.epsilon := by
  unfold points_distinct at h
  rw [List.pairwise_map, List.pairwise_iff_getElem] at h
  obtain ⟨hi, rfl⟩ := List.getElem?_eq_some.mp ha
  obtain ⟨hj, rfl⟩ := List.getElem?_eq_some.mp hb
  rcases Nat.lt_or_gt_of_ne hij with hlt | hgt
  · exact (h i j hi hj hlt).1
  · exact (h j i hj hi hgt).2

/-- C14. Point deduplication: from a constructed engine whose warm-start points are pairwise
at a squared distance of at least `epsilon` (none at all for a cold start), in every state
reachable by calls of `relaxation` no level of the value history and no level of the residual
history holds two entries, at different positions, whose points `p`, `q` satisfy
`normsq (p - q) < epsilon`; `normsq (p - q) = normsq (q - p)` for all points. -/
theorem point_deduplication [Sub P] (cfg : Config K P) (undRelxFac undRelxFacMax : K)
    (ptsVluInit : List (P × K)) (resL2NormNM1 indeterminate : K) (s : State K P)
    (hsymm : ∀ p q : P, cfg.normsq (p - q) = cfg.normsq (q - p))
    (hinit : (ptsVluInit.map Prod.fst).Pairwise
      (fun p q => ¬ cfg.normsq (p - q) < cfg.epsilon))
    (hreach : Reachable cfg
      (algo_aitken cfg undRelxFac undRelxFacMax ptsVluInit resL2NormNM1 indeterminate) s) :
    (∀ lvl ∈ s.ptsTimeVlu_, ∀ (i j : Nat) (a b : P × K), i ≠ j →
      lvl.2[i]? = some a → lvl.2[j]? = some b → ¬ cfg.normsq (a.1 - b.1) < cfg.epsilon) ∧
    (∀ lvl ∈ s.ptsTimeRes_, ∀ (i j : Nat) (a b : P × K), i ≠ j →
      lvl.2[i]? = some a → lvl.2[j]? = some b → ¬ cfg.normsq (a.1 - b.1) < cfg.epsilon) := by
  have key : history_distinct cfg s := by
    induction hreach with
    | start =>
      constructor
      · intro lvl hl
        by_cases he : ptsVluInit.isEmpty
        · simp [algo_aitken, he] at hl
        · simp [algo_aitken, he] at hl
          subst hl
          exact hinit.imp (fun hpq => ⟨hpq, by rw [← hsymm]; exact hpq⟩)
      · intro lvl hl
        simp [algo_aitken] at hl
    | call s1 s2 t focus v r _ hcall ih =>
      exact history_distinct_step cfg t focus s1 s2 hsymm
        (historyStep_relaxation cfg s1 t focus v r s2 hcall) ih
  exact ⟨fun lvl hl i j a b hij ha hb => points_distinct_getElem cfg lvl.2 (key.1 lvl hl)
      i j a b hij ha hb,
    fun lvl hl i j a b hij ha hb => points_distinct_getElem cfg lvl.2 (key.2 lvl hl)
      i j a b hij ha hb⟩

/-- Evaluation of two queries at one time and at two points on the engine `algo_aitken(1/2, 1)`
constructed with the warm-start residual norm `1`. -/
theorem relaxations_two_points :
    relaxations cfgQ (algo_aitken cfgQ (1 / 2) 1 [] 1 1) [(1, 0, 0), (1, 1, 8)]
      = .ok ([0, 0], stateTwoPoints) := by
  decide!

theorem point_deduplication_witness :
    (∀ lvl ∈ stateTwoPoints.ptsTimeVlu_, ∀ (i j : Nat) (a b : ℚ × ℚ), i ≠ j →
      lvl.2[i]? = some a → lvl.2[j]? = some b → ¬ cfgQ.normsq (a.1 - b.1) < cfgQ.epsilon) ∧
    (∀ lvl ∈ stateTwoPoints.ptsTimeRes_, ∀ (i j : Nat) (a b : ℚ × ℚ), i ≠ j →
      lvl.2[i]? = some a → lvl.2[j]? = some b → ¬ cfgQ.normsq (a.1 - b.1) < cfgQ.epsilon) :=
  point_deduplication cfgQ (1 / 2) 1 [] 1 1 stateTwoPoints
    (by intro p q; simp only [cfgQ]; ring) (by simp)
    (reachable_relaxations cfgQ _ _ _ _ _ Reachable.start relaxations_two_points)

/-! ## The clamp helper -/

theorem sign_of_neg (x : K) (hx : x < 0) : sign x = -1 := by simp [sign, hx]

theorem sign_of_pos (x : K) (hx : 0 < x) : sign x = 1 := by
  simp [sign, hx, not_lt.mpr (le_of_lt hx)]

theorem sign_zero_eq : sign (0 : K) = 0 := by simp [sign]

/-- C19. Clamp helper: for a bound `undRelxFacMax_ ≥ 0`, `calculate_aitken_constraint x`, which
is `sign x * min |x| undRelxFacMax_`, equals `x` when `|x| ≤ undRelxFacMax_` and equals
`undRelxFacMax_` with the sign of `x` otherwise; its magnitude is at most `undRelxFacMax_`, it
has the sign of `x` or is `0`, and the helper is idempotent. -/
theorem clamp_helper (undRelxFacMax_ x : K) (hm : 0 ≤ undRelxFacMax_) :
    (|x| ≤ undRelxFacMax_ → calculate_aitken_constraint undRelxFacMax_ x = x) ∧
    (undRelxFacMax_ < |x| →
      calculate_aitken_constraint undRelxFacMax_ x = (sign x : K) * undRelxFacMax_) ∧
    |calculate_aitken_constraint undRelxFacMax_ x| ≤ undRelxFacMax_ ∧
    (sign (calculate_aitken_constraint undRelxFacMax_ x) = sign x ∨
      calculate_aitken_constraint undRelxFacMax_ x = 0) ∧
    calculate_aitken_constraint undRelxFacMax_ (calculate_aitken_constraint undRelxFacMax_ x)
      = calculate_aitken_constraint undRelxFacMax_ x := by
  have hle : ∀ y : K, |y| ≤ undRelxFacMax_ →
      calculate_aitken_constraint undRelxFacMax_ y = y := by
    intro y hy
    unfold calculate_aitken_constraint
    rw [min_eq_left hy]
    rcases lt_trichotomy y 0 with h | h | h
    · rw [sign_of_neg y h, abs_of_neg h]; push_cast; ring
    · subst h; simp
    · rw [sign_of_pos y h, abs_of_pos h]; push_cast; ring
  have hgt : undRelxFacMax_ < |x| →
      calculate_aitken_constraint undRelxFacMax_ x = (sign x : K) * undRelxFacMax_ := by
    intro hx
    unfold calculate_aitken_constraint
    rw [min_eq_right (le_of_lt hx)]
  have hbound := abs_calculate_aitken_constraint_le undRelxFacMax_ x hm
  refine ⟨hle x, hgt, hbound, ?_, hle _ hbound⟩
  by_cases hx : |x| ≤ undRelxFacMax_
  · left; rw [hle x hx]
  · have hx' := not_le.mp hx
    rw [hgt hx']
    rcases lt_trichotomy x 0 with h | h | h
    · rcases eq_or_lt_of_le hm with h0 | h0
      · right; rw [← h0]; simp
      · left
        rw [sign_of_neg x h]
        push_cast
        exact sign_of_neg _ (by linarith)
    · subst h
      simp at hx'
      exact absurd hx' (not_lt.mpr hm)
    · rcases eq_or_lt_of_le hm with h0 | h0
      · right; rw [← h0]; simp
      · left
        rw [sign_of_pos x h]
        push_cast
        exact sign_of_pos _ (by linarith)

theorem clamp_helper_witness :
    (|(3 : ℚ)| ≤ 1 → calculate_aitken_constraint 1 (3 : ℚ) = 3) ∧
    ((1 : ℚ) < |3| → calculate_aitken_constraint 1 (3 : ℚ) = (sign (3 : ℚ) : ℚ) * 1) ∧
    |calculate_aitken_constraint 1 (3 : ℚ)| ≤ 1 ∧
    (sign (calculate_aitken_constraint 1 (3 : ℚ)) = sign (3 : ℚ) ∨
      calculate_aitken_constraint 1 (3 : ℚ) = 0) ∧
    calculate_aitken_constraint 1 (calculate_aitken_constraint 1 (3 : ℚ))
      = calculate_aitken_constraint 1 (3 : ℚ) :=
  clamp_helper 1 3 (by norm_num)

/-! ## Evaluation of the factor resolution on cached norms -/

/-- C3 (evaluation at the failing input). In `stateFreshNorms` the norm cache holds the entry
of norm `15` for the most recent time `2` before `3` and the entry of norm `3` for the most
recent time `1` before that, both up to date for their own levels, and the factor `1/2` is
stored for time `2`; the bound is `1`. The formula of the claim gives the factor `-1/8` for
time `3`. `update_undRelxFac 3` compares the count of the entry of level `1` with the number of
residuals of the head level `3`, overwrites the norm `3` with `5`, the norm of level `3`, and
leaves the factor `-1/4`. The numeric instance of the claim is an instance of the formula. -/
theorem aitken_formula_wrong_level :
    find_if (fun b => decide (b.1 < (3 : ℚ))) stateFreshNorms.residualL2Norm_ = some 0 ∧
    stateFreshNorms.residualL2Norm_[0]? = some (2, (2, 15)) ∧
    find_if (fun b => decide (b.1 < (2 : ℚ))) stateFreshNorms.residualL2Norm_ = some 1 ∧
    stateFreshNorms.residualL2Norm_[1]? = some (1, (1, 3)) ∧
    norm_of_own_level cfgQ stateFreshNorms 0 ∧ norm_of_own_level cfgQ stateFreshNorms 1 ∧
    find_if (fun b => decide (b.1 < (3 : ℚ))) stateFreshNorms.undRelxFac_ = some 0 ∧
    stateFreshNorms.undRelxFac_[0]? = some (2, 1 / 2) ∧
    calculate_aitken_constraint (1 : ℚ) (-(1 / 2) * (3 / (15 - 3))) = -1 / 8 ∧
    (∃ s', update_undRelxFac cfgQ stateFreshNorms 3 = .ok s' ∧
      factor_at cfgQ s' 3 = some (-1 / 4) ∧
      s'.residualL2Norm_ = [(2, (2, 15)), (1, (1, 5)), (-10000, (0, 7))]) ∧
    calculate_aitken_constraint (1 : ℚ) (-(1 / 2) * (2 / (1 - 2))) = 1 := by
  refine ⟨by decide!, by decide!, by decide!, by decide!,
    ⟨(2, (2, 15)), (2, [(1, 12), (0, 9)]), by decide!, by decide!, rfl, by decide!,
      by decide!⟩,
    ⟨(1, (1, 3)), (1, [(0, 3)]), by decide!, by decide!, rfl, by decide!, by decide!⟩,
    by decide!, by decide!, by decide!,
    ⟨{ stateFreshNorms with
        undRelxFac_ := [(3, -1 / 4), (2, 1 / 2)]
        residualL2Norm_ := [(2, (2, 15)), (1, (1, 5)), (-10000, (0, 7))] },
      by decide!, by decide!, by decide!⟩,
    by decide!⟩

/-- C5 (evaluation at the failing input). In `stateFreshZeros` and in `stateFreshZerosPair` the
cached norms one level back and two levels back of time `3` are both `0`, both up to date for
their own levels. The claim gives the factor `0` for time `3`. In `stateFreshZeros`
`update_undRelxFac 3` compares both counts with the number of residuals of the head level `3`,
overwrites both norms with `5`, the norm of level `3`, and fails the assertion on the
nominator, with a factor stored for time `3` and without one. In `stateFreshZerosPair` it
overwrites the norm two levels back only and stores the factor `1/2` for time `3`, with a
factor stored for time `3` and without one. -/
theorem degenerate_zero_wrong_level :
    find_if (fun b => decide (b.1 < (3 : ℚ))) stateFreshZeros.residualL2Norm_ = some 0 ∧
    stateFreshZeros.residualL2Norm_[0]? = some (2, (1, 0)) ∧
    find_if (fun b => decide (b.1 < (2 : ℚ))) stateFreshZeros.residualL2Norm_ = some 1 ∧
    stateFreshZeros.residualL2Norm_[1]? = some (1, (1, 0)) ∧
    norm_of_own_level cfgQ stateFreshZeros 0 ∧ norm_of_own_level cfgQ stateFreshZeros 1 ∧
    factor_at cfgQ stateFreshZeros 3 = some (1 / 2) ∧
    update_undRelxFac cfgQ stateFreshZeros 3 = .error .AssertionFailure ∧
    factor_at cfgQ { stateFreshZeros with undRelxFac_ := [(2, 1 / 2)] } 3 = none ∧
    update_undRelxFac cfgQ { stateFreshZeros with undRelxFac_ := [(2, 1 / 2)] } 3
      = .error .AssertionFailure ∧
    find_if (fun b => decide (b.1 < (3 : ℚ))) stateFreshZerosPair.residualL2Norm_ = some 0 ∧
    stateFreshZerosPair.residualL2Norm_[0]? = some (2, (2, 0)) ∧
    find_if (fun b => decide (b.1 < (2 : ℚ))) stateFreshZerosPair.residualL2Norm_ = some 1 ∧
    stateFreshZerosPair.residualL2Norm_[1]? = some (1, (1, 0)) ∧
    norm_of_own_level cfgQ stateFreshZerosPair 0 ∧
    norm_of_own_level cfgQ stateFreshZerosPair 1 ∧
    factor_at cfgQ stateFreshZerosPair 3 = none ∧
    (∃ s', update_undRelxFac cfgQ stateFreshZerosPair 3 = .ok s' ∧
      factor_at cfgQ s' 3 = some (1 / 2) ∧
      s'.residualL2Norm_ = [(2, (2, 0)), (1, (1, 5)), (-10000, (0, 7))]) ∧
    (∃ s', update_undRelxFac cfgQ
        { stateFreshZerosPair with undRelxFac_ := [(3, 1 / 4), (2, 1 / 2)] } 3 = .ok s' ∧
      factor_at cfgQ s' 3 = some (1 / 2)) := by
  refine ⟨by decide!, by decide!, by decide!, by decide!,
    ⟨(2, (1, 0)), (2, [(0, 0)]), by decide!, by decide!, rfl, by decide!, by decide!⟩,
    ⟨(1, (1, 0)), (1, [(0, 0)]), by decide!, by decide!, rfl, by decide!, by decide!⟩,
    by decide!, by decide!, by decide!, by decide!,
    by decide!, by decide!, by decide!, by decide!,
    ⟨(2, (2, 0)), (2, [(1, 0), (0, 0)]), by decide!, by decide!, rfl, by decide!, by decide!⟩,
    ⟨(1, (1, 0)), (1, [(0, 0)]), by decide!, by decide!, rfl, by decide!, by decide!⟩,
    by decide!,
    ⟨{ stateFreshZerosPair with
        undRelxFac_ := [(3, 1 / 2), (2, 1 / 2)]
        residualL2Norm_ := [(2, (2, 0)), (1, (1, 5)), (-10000, (0, 7))] },
      by decide!, by decide!, by decide!⟩,
    ⟨{ stateFreshZerosPair with
        undRelxFac_ := [(3, 1 / 2), (2, 1 / 2)]
        residualL2Norm_ := [(2, (2, 0)), (1, (1, 5)), (-10000, (0, 7))] },
      by decide!, by decide!⟩⟩

/-- C11 (evaluation at the failing input). In `stateStaleLevel` the cached norm entry of level
`2`, one level back of time `3`, has the count `1` and the norm `3` while level `2` holds two
residuals, of norm `5`; `update_undRelxFac 3` compares the count with the number of residuals
of the head level `3`, which is `1`, and leaves the cached norm `3`. -/
theorem norm_not_taken_from_level :
    find_if (fun b => decide (b.1 < (3 : ℚ))) stateStaleLevel.residualL2Norm_ = some 0 ∧
    stateStaleLevel.residualL2Norm_[0]? = some (2, (1, 3)) ∧
    stateStaleLevel.ptsTimeRes_[1]? = some (2, [(1, 4), (0, 3)]) ∧
    cfgQ.sqrt (localResidualMagSqSum [((1 : ℚ), (4 : ℚ)), (0, 3)]) = 5 ∧
    (∃ s', update_undRelxFac cfgQ stateStaleLevel 3 = .ok s' ∧
      s'.residualL2Norm_ = [(2, (1, 3)), (1, (1, 0))]) := by
  refine ⟨by decide!, by decide!, by decide!, by decide!,
    ⟨{ stateStaleLevel with undRelxFac_ := [(3, 0), (2, 1 / 2), (1, 1 / 2)] }, by decide!,
      by decide!⟩⟩

/-- C15 (evaluation at the failing input). In `stateStaleHead` the cached norm of the head
level `2` has the count `1` and the level holds two residuals: `update_undRelxFac 3` computes
the norm anew, `5` for `3`, and leaves the count `1`, so the entry still fails the test of the
source in the resulting state. -/
theorem recomputed_norm_keeps_count :
    update_undRelxFac cfgQ stateStaleHead 3 = .ok stateStaleHeadRefreshed ∧
    stateStaleHead.residualL2Norm_[0]? = some (2, (1, 3)) ∧
    stateStaleHeadRefreshed.residualL2Norm_[0]? = some (2, (1, 5)) ∧
    stateStaleHeadRefreshed.ptsTimeRes_[0]? = some (2, [(1, 4), (0, 3)]) ∧
    ¬ norm_up_to_date cfgQ stateStaleHeadRefreshed 0 := by
  refine ⟨by decide!, by decide!, by decide!, by decide!, ?_⟩
  rintro ⟨nm, j, lvl, h1, h2, h3, h4⟩
  simp only [stateStaleHeadRefreshed, List.getElem?_cons_zero, Option.some.injEq] at h1
  subst h1
  have hj : j = 0 := by
    have : find_if (fun b : ℚ × List (ℚ × ℚ) => decide ((2 : ℚ) - b.1 < cfgQ.epsilon))
        stateStaleHeadRefreshed.ptsTimeRes_ = some 0 := by decide!
    rw [this] at h2
    exact (Option.some.inj h2).symm
  subst hj
  simp only [stateStaleHeadRefreshed, List.getElem?_cons_zero, Option.some.injEq] at h3
  subst h3
  simp at h4

/-! ## Evaluation of call sequences -/

/-- C6 (evaluation at the failing input). On the cold engine `algo_aitken(1/2, 1)` the query
`(1, 0, 0)` returns `0` and leaves the norm cache empty; the same query on the resulting state
fails the assertion of source line 151. On the same engine after the query `(0, 0, 2)`, the
query `(1/10^17, 0, 4)` of the revisited level returns `5/2` and, asked again on the resulting
state, `13/4`: the previous-level lookup returns the level itself, so the value the first call
recorded is the prior value of the second. -/
theorem requery_not_idempotent :
    (∃ s1, relaxation cfgQ (algo_aitken cfgQ (1 / 2) 1 [] 0 1) 1 0 0 = .ok (0, s1) ∧
      s1.residualL2Norm_ = [] ∧ relaxation cfgQ s1 1 0 0 = .error .AssertionFailure) ∧
    relaxation cfgQ (algo_aitken cfgQ (1 / 2) 1 [] 0 1) 0 0 2 = .ok (1, stateZeroLevel) ∧
    relaxation cfgQ stateZeroLevel (1 / 100000000000000000) 0 4 = .ok (5 / 2, stateRevisited) ∧
    relaxation cfgQ stateRevisited (1 / 100000000000000000) 0 4
      = .ok (13 / 4, { stateRevisited with
          ptsTimeVlu_ := [(0, [(0, 13 / 4)])]
          ptsTimeRes_ := [(0, [(0, 3 / 4)])] }) :=
  ⟨⟨State.mk (1 / 2) 1 [(1, 1 / 2)] [] [(1, [(0, 0)])] [(1, [(0, 0)])], by decide!, rfl,
    by decide!⟩, by decide!, by decide!, by decide!⟩

/-- C9 (evaluation at the failing input). The engine `algo_aitken(1/2, 1)` constructed with the
warm-start residual norm `1` is in `stateWarmNorm` after the query `(2, 0, 2)`, its most recent
level being `2`. The query `(1, 0, 5)` at the earlier time `1` is answered with the value `1`
stored for the point `0` at level `2`. After the query `(2, 0, 0)` instead, the query
`(1, 1, 8)` at the earlier time `1` and at a new point is answered with the interpolated value
`0`, which it records, with the residual `8`, at level `2`. -/
theorem earlier_time_is_answered :
    relaxation cfgQ (algo_aitken cfgQ (1 / 2) 1 [] 1 1) 2 0 2 = .ok (1, stateWarmNorm) ∧
    relaxation cfgQ stateWarmNorm 1 0 5 = .ok (1, stateWarmNorm) ∧
    relaxations cfgQ (algo_aitken cfgQ (1 / 2) 1 [] 1 1) [(2, 0, 0), (1, 1, 8)]
      = .ok ([0, 0], { stateWarmNorm with
          ptsTimeVlu_ := [(2, [(1, 0), (0, 0)])]
          ptsTimeRes_ := [(2, [(1, 8), (0, 0)])] }) := by
  refine ⟨by decide!, by decide!, by decide!⟩

/-- C13 (evaluation at the failing input). The cold engine `algo_aitken(1/2, 1)` is in
`stateOneLevel` after the query `(1, 0, 2)`. The present-level lookup for the query time `1/2`
returns the level of time `1` in the value history, in the residual history and in the factor
list, although no recorded level is within `epsilon` of `1/2`. -/
theorem present_lookup_one_sided :
    relaxation cfgQ (algo_aitken cfgQ (1 / 2) 1 [] 0 1) 1 0 2 = .ok (1, stateOneLevel) ∧
    find_if (fun b => decide ((1 / 2 : ℚ) - b.1 < cfgQ.epsilon)) stateOneLevel.ptsTimeVlu_
      = some 0 ∧
    stateOneLevel.ptsTimeVlu_[0]? = some (1, [(0, 1)]) ∧
    find_if (fun b => decide ((1 / 2 : ℚ) - b.1 < cfgQ.epsilon)) stateOneLevel.ptsTimeRes_
      = some 0 ∧
    stateOneLevel.ptsTimeRes_[0]? = some (1, [(0, 1)]) ∧
    find_if (fun b => decide ((1 / 2 : ℚ) - b.1 < cfgQ.epsilon)) stateOneLevel.undRelxFac_
      = some 0 ∧
    stateOneLevel.undRelxFac_[0]? = some (1, 1 / 2) ∧
    ¬ |(1 / 2 : ℚ) - 1| < cfgQ.epsilon ∧
    (∀ b ∈ stateOneLevel.ptsTimeVlu_, ¬ |(1 / 2 : ℚ) - b.1| < cfgQ.epsilon) := by
  refine ⟨by decide!, by decide!, by decide!, by decide!, by decide!, by decide!, by decide!,
    by decide!, by decide!⟩

/-- C16 (evaluation at the failing input). The cold engine `algo_aitken(1/2, 1)` is in
`stateOneLevel` after the query `(1, 0, 2)`: one level `1`, without a cached norm. The query
`(2, 0, 2)` finds no present level and the previous level `1`; after the insertion of the new
level it reads the iterator of the previous level, which the insertion has invalidated (source
lines 246, 259-260), and does not return. The branch for a new level after a previous one ends
in this way, or earlier in another error, for every state and every argument. -/
theorem new_level_reads_invalidated :
    relaxation cfgQ (algo_aitken cfgQ (1 / 2) 1 [] 0 1) 1 0 2 = .ok (1, stateOneLevel) ∧
    find_if (fun b => decide ((2 : ℚ) - b.1 < cfgQ.epsilon)) stateOneLevel.ptsTimeVlu_ = none ∧
    find_if (fun b => decide (b.1 < (2 : ℚ))) stateOneLevel.ptsTimeVlu_ = some 0 ∧
    stateOneLevel.residualL2Norm_ = [] ∧
    relaxation cfgQ stateOneLevel 2 0 2 = .error .InvalidIterator ∧
    (∀ (cfg : Config K P) (s : State K P) (t : K) (focus : P) (v : K) (j : Nat)
        (presentResIter previousResIter : Option Nat),
      ∃ e, relaxation_new_level cfg s t focus v j presentResIter previousResIter = .error e) := by
  refine ⟨by decide!, by decide!, by decide!, rfl, by decide!, ?_⟩
  intro cfg s t focus v j presentResIter previousResIter
  exact relaxation_new_level_error cfg s t focus v j presentResIter previousResIter

/-- Without a present level in the residual history the branch for a present level without a
previous level dereferences `end()` (source line 150). -/
theorem relaxation_present_only_no_residual (cfg : Config K P) (s : State K P) (focus : P)
    (v : K) (presentIter : Nat) :
    relaxation_present_only cfg s focus v presentIter none = .error .EndIterator := by
  unfold relaxation_present_only
  cases s.ptsTimeVlu_[presentIter]? <;> rfl

/-- Without a present level in the residual history the branch for a present level with a
previous level dereferences `end()` (source line 305). -/
theorem relaxation_revisit_no_residual (cfg : Config K P) (s : State K P) (t : K) (focus : P)
    (v : K) (presentIter previousIter : Nat) :
    relaxation_revisit cfg s t focus v presentIter previousIter none = .error .EndIterator := by
  unfold relaxation_revisit
  cases s.ptsTimeVlu_[presentIter]? <;> rfl

/-- C18 (evaluation at the failing input). On the engine `algo_aitken(1/2, 1)` warm-started
with the value `3` at the point `0` and no residual norm, the first query `(1, 0, 2)` does not
return `1/2 * 2 + (1 - 1/2) * 3`: after the insertion of the new level it reads the invalidated
iterator of the warm-start level (source line 260). With the warm-start residual norm `1` it
reads it in line 256. Every first query on an engine warm-started with values ends in an
error, whatever the time, the point, the value and the warm-start residual norm. -/
theorem warm_values_fail :
    relaxation cfgQ (algo_aitken cfgQ (1 / 2) 1 [(0, 3)] 0 1) 1 0 2 = .error .InvalidIterator ∧
    relaxation cfgQ (algo_aitken cfgQ (1 / 2) 1 [(0, 3)] 1 1) 1 0 2 = .error .InvalidIterator ∧
    (∀ (cfg : Config K P) (undRelxFac undRelxFacMax : K) (p : P × K) (pts : List (P × K))
        (resL2NormNM1 indeterminate t : K) (focus : P) (v : K),
      ∃ e, relaxation cfg
        (algo_aitken cfg undRelxFac undRelxFacMax (p :: pts) resL2NormNM1 indeterminate)
        t focus v = .error e) := by
  refine ⟨by decide!, by decide!, ?_⟩
  intro cfg undRelxFac undRelxFacMax p pts resL2NormNM1 indeterminate t focus v
  unfold relaxation
  have hR : (algo_aitken cfg undRelxFac undRelxFacMax (p :: pts) resL2NormNM1
      indeterminate).ptsTimeRes_ = [] := rfl
  have hV : (algo_aitken cfg undRelxFac undRelxFacMax (p :: pts) resL2NormNM1
      indeterminate).ptsTimeVlu_.isEmpty = false := rfl
  simp only [hV, hR, find_if, Bool.false_eq_true, if_false]
  split
  · exact ⟨.UnsupportedInput, by simp⟩
  · exact ⟨_, relaxation_present_only_no_residual cfg _ focus v _⟩
  · exact relaxation_new_level_error cfg _ t focus v _ _ _
  · exact ⟨_, relaxation_revisit_no_residual cfg _ t focus v _ _⟩

/-! ## The diagnostic branch -/

theorem resolve_old_supported (cfg : Config K P) (focus : P) (pts : List (P × K)) :
    resolve_old cfg focus pts ≠ .error .UnsupportedInput := by
  unfold resolve_old
  split
  · simp
  · split <;> simp

theorem find_NM2_supported (l : List (K × (Nat × K))) (r : Option Nat) :
    find_NM2 l r ≠ .error .UnsupportedInput := by
  unfold find_NM2
  split
  · simp
  · simp
  · split <;> simp

theorem refresh_norm_supported (cfg : Config K P)
    (recurse : State K P → K → Except Err (State K P))
    (hrec : ∀ s t, recurse s t ≠ .error .UnsupportedInput) (s : State K P) (k : Nat) :
    refresh_norm cfg recurse s k ≠ .error .UnsupportedInput := by
  unfold refresh_norm
  split
  · simp
  · split
    · simp
    · split
      · simp
      · split
        · exact hrec _ _
        · simp

theorem update_fuel_supported (cfg : Config K P) :
    ∀ (fuel : Nat) (s : State K P) (t : K),
      update_undRelxFac_fuel cfg fuel s t ≠ .error .UnsupportedInput
  | 0, s, t => by simp [update_undRelxFac_fuel]
  | fuel + 1, s, t => by
    have ih := update_fuel_supported cfg fuel
    intro h
    rw [update_undRelxFac_fuel] at h
    simp only at h
    split at h
    · rename_i e he
      simp only [Except.error.injEq] at h
      subst h
      exact find_NM2_supported _ _ he
    · simp at h
    · split at h
      · simp at h
      · simp at h
      · split at h
        · rename_i e' hs2
          simp only [Except.error.injEq] at h
          subst h
          split at hs2
          · split at hs2
            · rename_i e'' hs1
              simp only [Except.error.injEq] at hs2
              subst hs2
              exact refresh_norm_supported cfg _ ih _ _ hs1
            · exact refresh_norm_supported cfg _ ih _ _ hs2
          · simp at hs2
        · repeat' (split at h)
          all_goals simp at h

theorem calculate_relaxed_value_supported (cfg : Config K P) (s : State K P)
    (t v o : K) : calculate_relaxed_value cfg s t v o ≠ .error .UnsupportedInput := by
  intro h
  unfold calculate_relaxed_value at h
  split at h
  · rename_i e he
    simp only [Except.error.injEq] at h
    subst h
    exact update_fuel_supported cfg _ _ _ he
  · split at h
    · simp at h
    · split at h <;> simp at h

theorem calculate_point_residual_supported (cfg : Config K P) (s : State K P)
    (t v o : K) : calculate_point_residual cfg s t v o ≠ .error .UnsupportedInput := by
  intro h
  unfold calculate_point_residual at h
  split at h
  · rename_i e he
    simp only [Except.error.injEq] at h
    subst h
    exact calculate_relaxed_value_supported cfg _ _ _ _ he
  · simp at h

theorem relaxation_first_supported (cfg : Config K P) (s : State K P) (t : K)
    (focus : P) (v : K) : relaxation_first cfg s t focus v ≠ .error .UnsupportedInput := by
  intro h
  unfold relaxation_first at h
  repeat' (first | split at h | (simp only at h; split at h))
  all_goals first
    | (simp at h; done)
    | exact calculate_relaxed_value_supported _ _ _ _ _ h
    | (simp only [Except.error.injEq] at h
       subst h
       first
        | exact calculate_relaxed_value_supported _ _ _ _ _ (by assumption)
        | exact calculate_point_residual_supported _ _ _ _ _ (by assumption))

theorem relaxation_present_only_supported (cfg : Config K P) (s : State K P)
    (focus : P) (v : K) (presentIter : Nat) (presentResIter : Option Nat) :
    relaxation_present_only cfg s focus v presentIter presentResIter
      ≠ .error .UnsupportedInput := by
  intro h
  unfold relaxation_present_only at h
  repeat' (first | split at h | (simp only at h; split at h))
  all_goals simp at h

theorem relaxation_new_level_supported (cfg : Config K P) (s : State K P) (t : K)
    (focus : P) (v : K) (previousIter : Nat) (presentResIter previousResIter : Option Nat) :
    relaxation_new_level cfg s t focus v previousIter presentResIter previousResIter
      ≠ .error .UnsupportedInput := by
  intro h
  unfold relaxation_new_level at h
  simp only [cache_previous_norm_invalid] at h
  repeat' (split at h)
  all_goals first
    | (simp at h; done)
    | (simp only [Except.error.injEq] at h
       subst h
       first
        | exact calculate_relaxed_value_supported _ _ _ _ _ (by assumption)
        | exact calculate_point_residual_supported _ _ _ _ _ (by assumption)
        | exact resolve_old_supported _ _ _ (by assumption))

theorem relaxation_revisit_supported (cfg : Config K P) (s : State K P) (t : K)
    (focus : P) (v : K) (presentIter previousIter : Nat) (presentResIter : Option Nat) :
    relaxation_revisit cfg s t focus v presentIter previousIter presentResIter
      ≠ .error .UnsupportedInput := by
  intro h
  unfold relaxation_revisit at h
  repeat' (first | split at h | (simp only at h; split at h))
  all_goals first
    | (simp at h; done)
    | exact calculate_relaxed_value_supported _ _ _ _ _ h
    | (simp only [Except.error.injEq] at h
       subst h
       first
        | exact calculate_relaxed_value_supported _ _ _ _ _ (by assumption)
        | exact calculate_point_residual_supported _ _ _ _ _ (by assumption)
        | exact resolve_old_supported _ _ _ (by assumption))

/-- With a positive tolerance every time either passes the present-level test or lies below
the query time. -/
theorem present_or_previous (eps t T : K) (heps : 0 < eps) : t - T < eps ∨ T < t := by
  by_cases h : t - T < eps
  · exact Or.inl h
  · right
    have h1 : eps ≤ t - T := not_lt.mp h
    have h2 : 0 < t - T := lt_of_lt_of_le heps h1
    linarith

/-- On a non-empty list, a present-level lookup that finds nothing leaves the head to the
previous-level lookup. -/
theorem find_if_previous_of_present_none {β : Type} (eps t : K) (heps : 0 < eps)
    (l : List (K × β)) (hne : l ≠ [])
    (h : find_if (fun b => decide (t - b.1 < eps)) l = none) :
    find_if (fun b => decide (b.1 < t)) l = some 0 := by
  cases l with
  | nil => exact absurd rfl hne
  | cons a l =>
    have ha := find_if_eq_none _ _ h a (by simp)
    have hlt : a.1 < t := by
      rcases present_or_previous eps t a.1 heps with hp | hp
      · simp [hp] at ha
      · exact hp
    simp [find_if, hlt]

/-- C21. The branch of `relaxation` that only prints the diagnostic is not taken when the
tolerance `epsilon` is positive: on a non-empty value history at least one of the present-level
lookup and the previous-level lookup finds a level, no call of `relaxation` has the result of the
diagnostic branch, and every call is the evaluation of one of the four branches that end in a
`return`: the first-query branch on an empty history, and otherwise the present-only, new-level
or revisit branch at the levels the two lookups found. -/
theorem diagnostic_branch_unreachable (cfg : Config K P) (heps : 0 < cfg.epsilon)
    (s : State K P) (t : K) (focus : P) (v : K) :
    (s.ptsTimeVlu_ ≠ [] →
      find_if (fun b => decide (t - b.1 < cfg.epsilon)) s.ptsTimeVlu_ ≠ none ∨
      find_if (fun b => decide (b.1 < t)) s.ptsTimeVlu_ ≠ none) ∧
    relaxation cfg s t focus v ≠ .error .UnsupportedInput ∧
    ((s.ptsTimeVlu_ = [] ∧ relaxation cfg s t focus v = relaxation_first cfg s t focus v) ∨
     (∃ present, s.ptsTimeVlu_ ≠ [] ∧
        find_if (fun b => decide (t - b.1 < cfg.epsilon)) s.ptsTimeVlu_ = some present ∧
        find_if (fun b => decide (b.1 < t)) s.ptsTimeVlu_ = none ∧
        relaxation cfg s t focus v =
          relaxation_present_only cfg s focus v present
            (find_if (fun b => decide (t - b.1 < cfg.epsilon)) s.ptsTimeRes_)) ∨
     (∃ previous, s.ptsTimeVlu_ ≠ [] ∧
        find_if (fun b => decide (t - b.1 < cfg.epsilon)) s.ptsTimeVlu_ = none ∧
        find_if (fun b => decide (b.1 < t)) s.ptsTimeVlu_ = some previous ∧
        relaxation cfg s t focus v =
          relaxation_new_level cfg s t focus v previous
            (find_if (fun b => decide (t - b.1 < cfg.epsilon)) s.ptsTimeRes_)
            (find_if (fun b => decide (b.1 < t)) s.ptsTimeRes_)) ∨
     (∃ present previous, s.ptsTimeVlu_ ≠ [] ∧
        find_if (fun b => decide (t - b.1 < cfg.epsilon)) s.ptsTimeVlu_ = some present ∧
        find_if (fun b => decide (b.1 < t)) s.ptsTimeVlu_ = some previous ∧
        relaxation cfg s t focus v =
          relaxation_revisit cfg s t focus v present previous
            (find_if (fun b => decide (t - b.1 < cfg.epsilon)) s.ptsTimeRes_))) := by
  have hlook : s.ptsTimeVlu_ ≠ [] →
      find_if (fun b => decide (t - b.1 < cfg.epsilon)) s.ptsTimeVlu_ ≠ none ∨
      find_if (fun b => decide (b.1 < t)) s.ptsTimeVlu_ ≠ none := by
    intro hne
    by_cases h : find_if (fun b => decide (t - b.1 < cfg.epsilon)) s.ptsTimeVlu_ = none
    · right
      rw [find_if_previous_of_present_none cfg.epsilon t heps _ hne h]
      simp
    · exact Or.inl h
  have hbranch :
    ((s.ptsTimeVlu_ = [] ∧ relaxation cfg s t focus v = relaxation_first cfg s t focus v) ∨
     (∃ present, s.ptsTimeVlu_ ≠ [] ∧
        find_if (fun b => decide (t - b.1 < cfg.epsilon)) s.ptsTimeVlu_ = some present ∧
        find_if (fun b => decide (b.1 < t)) s.ptsTimeVlu_ = none ∧
        relaxation cfg s t focus v =
          relaxation_present_only cfg s focus v present
            (find_if (fun b => decide (t - b.1 < cfg.epsilon)) s.ptsTimeRes_)) ∨
     (∃ previous, s.ptsTimeVlu_ ≠ [] ∧
        find_if (fun b => decide (t - b.1 < cfg.epsilon)) s.ptsTimeVlu_ = none ∧
        find_if (fun b => decide (b.1 < t)) s.ptsTimeVlu_ = some previous ∧
        relaxation cfg s t focus v =
          relaxation_new_level cfg s t focus v previous
            (find_if (fun b => decide (t - b.1 < cfg.epsilon)) s.ptsTimeRes_)
            (find_if (fun b => decide (b.1 < t)) s.ptsTimeRes_)) ∨
     (∃ present previous, s.ptsTimeVlu_ ≠ [] ∧
        find_if (fun b => decide (t - b.1 < cfg.epsilon)) s.ptsTimeVlu_ = some present ∧
        find_if (fun b => decide (b.1 < t)) s.ptsTimeVlu_ = some previous ∧
        relaxation cfg s t focus v =
          relaxation_revisit cfg s t focus v present previous
            (find_if (fun b => decide (t - b.1 < cfg.epsilon)) s.ptsTimeRes_))) := by
    by_cases hne : s.ptsTimeVlu_ = []
    · left
      refine ⟨hne, ?_⟩
      simp [relaxation, hne]
    · right
      have hemp : s.ptsTimeVlu_.isEmpty = false := by
        cases hl : s.ptsTimeVlu_ with
        | nil => exact absurd hl hne
        | cons a l => rfl
      cases hpres : find_if (fun b => decide (t - b.1 < cfg.epsilon)) s.ptsTimeVlu_ with
      | none =>
        have hprev := find_if_previous_of_present_none cfg.epsilon t heps _ hne hpres
        right; left
        refine ⟨0, hne, rfl, hprev, ?_⟩
        simp [relaxation, hemp, hpres, hprev]
      | some present =>
        cases hprev : find_if (fun b => decide (b.1 < t)) s.ptsTimeVlu_ with
        | none =>
          left
          refine ⟨present, hne, rfl, rfl, ?_⟩
          simp [relaxation, hemp, hpres, hprev]
        | some previous =>
          right; right
          refine ⟨present, previous, hne, rfl, rfl, ?_⟩
          simp [relaxation, hemp, hpres, hprev]
  refine ⟨hlook, ?_, hbranch⟩
  rcases hbranch with ⟨_, h⟩ | ⟨_, _, _, _, h⟩ | ⟨_, _, _, _, h⟩ | ⟨_, _, _, _, _, h⟩
  · rw [h]; exact relaxation_first_supported _ _ _ _ _
  · rw [h]; exact relaxation_present_only_supported _ _ _ _ _ _
  · rw [h]; exact relaxation_new_level_supported _ _ _ _ _ _ _ _
  · rw [h]; exact relaxation_revisit_supported _ _ _ _ _ _ _ _

theorem diagnostic_branch_unreachable_witness :
    (0 : ℚ) < cfgQ.epsilon ∧ stateTwoLevels.ptsTimeVlu_ ≠ [] ∧
    relaxation cfgQ stateTwoLevels 3 0 5 ≠ .error .UnsupportedInput ∧
    (find_if (fun b => decide ((3 : ℚ) - b.1 < cfgQ.epsilon)) stateTwoLevels.ptsTimeVlu_ ≠ none ∨
      find_if (fun b => decide (b.1 < (3 : ℚ))) stateTwoLevels.ptsTimeVlu_ ≠ none) :=
  ⟨by norm_num [cfgQ], by simp [stateTwoLevels],
    (diagnostic_branch_unreachable cfgQ (by norm_num [cfgQ]) stateTwoLevels 3 0 5).2.1,
    (diagnostic_branch_unreachable cfgQ (by norm_num [cfgQ]) stateTwoLevels 3 0 5).1
      (by simp [stateTwoLevels])⟩

/-- The positivity of the tolerance is needed: with a tolerance of zero, a query at the time of
the only level of a warm-started engine finds no present and no previous level and has the
result of the diagnostic branch. -/
theorem diagnostic_branch_zero_tolerance :
    (algo_aitken cfgZeroTolerance (1 / 2) 1 [(0, 0)] 0 1).ptsTimeVlu_ ≠ [] ∧
    relaxation cfgZeroTolerance (algo_aitken cfgZeroTolerance (1 / 2) 1 [(0, 0)] 0 1)
      (-10000) 0 2 = .error .UnsupportedInput := by
  refine ⟨by decide!, by decide!⟩

/-! ## Termination of the factor resolution -/

theorem countP_below_le (T t : K) (hlt : T < t) :
    ∀ l : List K, l.countP (fun x => decide (x < T)) ≤ l.countP (fun x => decide (x < t))
  | [] => by simp
  | a :: l => by
    rw [List.countP_cons, List.countP_cons]
    have ih := countP_below_le T t hlt l
    by_cases h1 : a < T
    · have h2 : a < t := lt_trans h1 hlt
      simp [h1, h2, ih]
    · by_cases h2 : a < t
      · simp [h1, h2]; omega
      · simp [h1, h2, ih]

theorem countP_below_lt (T t : K) (hlt : T < t) :
    ∀ l : List K, T ∈ l →
      l.countP (fun x => decide (x < T)) < l.countP (fun x => decide (x < t))
  | [], h => by simp at h
  | a :: l, h => by
    rw [List.countP_cons, List.countP_cons]
    rcases List.mem_cons.mp h with rfl | h
    · have := countP_below_le T t hlt l
      simp [hlt]
      omega
    · have ih := countP_below_lt T t hlt l h
      by_cases h1 : a < T
      · have h2 : a < t := lt_trans h1 hlt
        simp [h1, h2, ih]
      · by_cases h2 : a < t
        · simp [h1, h2]; omega
        · simp [h1, h2, ih]

theorem norms_below_congr (s s' : State K P) (h : same_norm_times s s') (t : K) :
    norms_below s' t = norms_below s t := by
  unfold norms_below
  rw [h]

theorem same_norm_times_assign (s : State K P) (k : Nat) (x : K) :
    same_norm_times s
      { s with residualL2Norm_ :=
          (assign_at (fun b => (b.1, (b.2.1, x))) k s.residualL2Norm_) } := by
  unfold same_norm_times
  apply map_fst_assign_at
  intro _
  rfl

theorem same_norm_times_getElem (s s' : State K P) (h : same_norm_times s s') (k : Nat)
    (e e' : K × (Nat × K)) (he : s.residualL2Norm_[k]? = some e)
    (he' : s'.residualL2Norm_[k]? = some e') : e'.1 = e.1 := by
  have h1 : (s'.residualL2Norm_.map Prod.fst)[k]? = (s.residualL2Norm_.map Prod.fst)[k]? := by
    rw [h]
  simp only [List.getElem?_map, he, he', Option.map_some', Option.some.injEq] at h1
  exact h1

theorem same_norm_times_store_factor (s : State K P) (present : Option Nat) (t x : K) :
    same_norm_times s (store_factor s present t x) := by
  cases present <;> rfl

theorem same_norm_times_trans {s1 s2 s3 : State K P} (h12 : same_norm_times s1 s2)
    (h23 : same_norm_times s2 s3) : same_norm_times s1 s3 :=
  Eq.trans h23 h12

theorem same_norm_times_refresh_norm (cfg : Config K P)
    (recurse : State K P → K → Except Err (State K P))
    (hrec : ∀ s t s', recurse s t = .ok s' → same_norm_times s s')
    (s : State K P) (k : Nat) (s' : State K P)
    (h : refresh_norm cfg recurse s k = .ok s') : same_norm_times s s' :=
  refresh_norm_frame cfg same_norm_times (fun _ => rfl) (fun _ _ _ => same_norm_times_trans)
    same_norm_times_assign recurse hrec s k s' h

theorem same_norm_times_update_fuel (cfg : Config K P) (fuel : Nat) (s : State K P) (t : K)
    (s' : State K P) (h : update_undRelxFac_fuel cfg fuel s t = .ok s') :
    same_norm_times s s' :=
  update_fuel_frame cfg same_norm_times (fun _ => rfl) (fun _ _ _ => same_norm_times_trans)
    same_norm_times_store_factor same_norm_times_assign fuel s t s' h

theorem norms_below_entry_lt (s s1 : State K P) (hs : same_norm_times s s1) (k : Nat)
    (e : K × (Nat × K)) (t : K) (he : s.residualL2Norm_[k]? = some e) (het : e.1 < t) :
    norms_below s1 e.1 < norms_below s t := by
  rw [norms_below_congr s s1 hs]
  exact countP_below_lt e.1 t het _ (List.mem_map.mpr ⟨e, List.getElem?_mem he, rfl⟩)

theorem find_NM2_ok_some (l : List (K × (Nat × K))) (r : Option Nat) (nm2 : Nat)
    (h : find_NM2 l r = .ok (some nm2)) :
    ∃ nm1 e1 e2, r = some nm1 ∧ l[nm1]? = some e1 ∧ l[nm2]? = some e2 ∧ e2.1 < e1.1 := by
  unfold find_NM2 at h
  split at h
  · simp at h
  · simp at h
  · rename_i i _
    split at h
    · simp at h
    · rename_i e1 he1
      simp only [Except.ok.injEq] at h
      obtain ⟨e2, he2, hp⟩ := find_if_some_get _ _ _ h
      exact ⟨i, e1, e2, rfl, he1, he2, by simpa using hp⟩

theorem find_NM2_error (l : List (K × (Nat × K))) (r : Option Nat) (e : Err)
    (h : find_NM2 l r = .error e) : e = .EndIterator := by
  unfold find_NM2 at h
  split at h
  · simp at h
  · simp only [Except.error.injEq] at h
    exact h.symm
  · split at h
    · simp only [Except.error.injEq] at h
      exact h.symm
    · simp at h

theorem refresh_norm_enough (cfg : Config K P) (fuel : Nat)
    (ih : ∀ (s : State K P) (t : K), norms_below s t < fuel →
      update_undRelxFac_fuel cfg fuel s t ≠ .error .OutOfFuel)
    (s : State K P) (k : Nat) (t : K)
    (hk : ∀ e, s.residualL2Norm_[k]? = some e → e.1 < t) (hb : norms_below s t ≤ fuel) :
    refresh_norm cfg (update_undRelxFac_fuel cfg fuel) s k ≠ .error .OutOfFuel := by
  intro h
  unfold refresh_norm at h
  split at h
  · simp at h
  · rename_i nm hnm
    split at h
    · simp at h
    · split at h
      · simp at h
      · rename_i lvl _
        split at h
        · refine ih _ nm.1 ?_ h
          have := norms_below_entry_lt s _
            (same_norm_times_assign s k (cfg.sqrt (localResidualMagSqSum lvl.2))) k nm t hnm
            (hk nm hnm)
          omega
        · simp at h

theorem update_fuel_enough (cfg : Config K P) :
    ∀ (fuel : Nat) (s : State K P) (t : K), norms_below s t < fuel →
      update_undRelxFac_fuel cfg fuel s t ≠ .error .OutOfFuel
  | 0, s, t, hb => absurd hb (Nat.not_lt_zero _)
  | fuel + 1, s, t, hb => by
    have ih := update_fuel_enough cfg fuel
    have hb' : norms_below s t ≤ fuel := Nat.lt_succ_iff.mp hb
    intro h
    rw [update_undRelxFac_fuel] at h
    simp only at h
    split at h
    · rename_i e hnm2
      simp only [Except.error.injEq] at h
      subst h
      exact absurd (find_NM2_error _ _ _ hnm2) (by decide)
    · simp at h
    · rename_i nm2 hnm2
      obtain ⟨nm1, e1, e2, hr, he1, he2, h21⟩ := find_NM2_ok_some _ _ _ hnm2
      obtain ⟨a, ha, hpa⟩ := find_if_some_get _ _ _ hr
      have h1t : e1.1 < t := by
        rw [he1] at ha
        simp only [Option.some.injEq] at ha
        subst ha
        simpa using hpa
      have h2t : e2.1 < t := lt_trans h21 h1t
      split at h
      · simp at h
      · simp at h
      · rename_i hnm1 _
        split at h
        · rename_i e' hs2
          simp only [Except.error.injEq] at h
          subst h
          split at hs2
          · split at hs2
            · rename_i e'' hs1
              simp only [Except.error.injEq] at hs2
              subst hs2
              refine refresh_norm_enough cfg fuel ih s nm2 t ?_ hb' hs1
              intro e he
              rw [he2] at he
              exact (Option.some.inj he) ▸ h2t
            · rename_i s1 hs1
              have hst := same_norm_times_refresh_norm cfg _
                (same_norm_times_update_fuel cfg fuel) _ _ _ hs1
              refine refresh_norm_enough cfg fuel ih s1 _ t ?_ ?_ hs2
              · intro e he
                rw [hr] at hnm1
                have hi := Option.some.inj hnm1
                subst hi
                rw [same_norm_times_getElem s s1 hst _ e1 e he1 he]
                exact h1t
              · rw [norms_below_congr s s1 hst]
                exact hb'
          · simp at hs2
        · repeat' (split at h)
          all_goals simp at h

theorem refresh_norm_congr (cfg : Config K P)
    (rec1 rec2 : State K P → K → Except Err (State K P)) (s : State K P) (k : Nat)
    (h : ∀ e s1, s.residualL2Norm_[k]? = some e → same_norm_times s s1 →
      rec1 s1 e.1 = rec2 s1 e.1) :
    refresh_norm cfg rec1 s k = refresh_norm cfg rec2 s k := by
  unfold refresh_norm
  split
  · rfl
  · rename_i nm hnm
    split
    · rfl
    · split
      · rfl
      · rename_i lvl _
        split
        · exact h nm _ hnm
            (same_norm_times_assign s k (cfg.sqrt (localResidualMagSqSum lvl.2)))
        · rfl

theorem update_fuel_stable (cfg : Config K P) :
    ∀ (fuel fuel' : Nat) (s : State K P) (t : K), norms_below s t < fuel →
      norms_below s t < fuel' →
      update_undRelxFac_fuel cfg fuel s t = update_undRelxFac_fuel cfg fuel' s t
  | 0, _, s, t, hb, _ => absurd hb (Nat.not_lt_zero _)
  | _ + 1, 0, s, t, _, hb => absurd hb (Nat.not_lt_zero _)
  | f + 1, f' + 1, s, t, hb, hb' => by
    have ih := update_fuel_stable cfg f f'
    have hf : norms_below s t ≤ f := Nat.lt_succ_iff.mp hb
    have hf' : norms_below s t ≤ f' := Nat.lt_succ_iff.mp hb'
    have hcall : ∀ (s0 : State K P), same_norm_times s s0 → ∀ (k : Nat),
        (∀ e, s.residualL2Norm_[k]? = some e → e.1 < t) →
        refresh_norm cfg (update_undRelxFac_fuel cfg f) s0 k
          = refresh_norm cfg (update_undRelxFac_fuel cfg f') s0 k := by
      intro s0 hs0 k hk
      apply refresh_norm_congr
      intro e s1 he hs1
      have hst : same_norm_times s s1 := hs1.trans hs0
      cases hse : s.residualL2Norm_[k]? with
      | none =>
        have h1 : (s0.residualL2Norm_.map Prod.fst)[k]?
            = (s.residualL2Norm_.map Prod.fst)[k]? := by rw [hs0]
        simp [List.getElem?_map, he, hse] at h1
      | some e0 =>
        have hee : e.1 = e0.1 := same_norm_times_getElem s s0 hs0 k e0 e hse he
        have hlt := norms_below_entry_lt s s1 hst k e0 t hse (hk e0 hse)
        rw [hee]
        exact ih s1 e0.1 (by omega) (by omega)
    rw [update_undRelxFac_fuel, update_undRelxFac_fuel]
    simp only
    cases hnm2 : find_NM2 s.residualL2Norm_
        (find_if (fun b => decide (b.1 < t)) s.residualL2Norm_) with
    | error e => rfl
    | ok r =>
      cases r with
      | none => rfl
      | some nm2 =>
        obtain ⟨nm1, e1, e2, hr, he1, he2, h21⟩ := find_NM2_ok_some _ _ _ hnm2
        obtain ⟨a, ha, hpa⟩ := find_if_some_get _ _ _ hr
        have h1t : e1.1 < t := by
          rw [he1] at ha
          simp only [Option.some.injEq] at ha
          subst ha
          simpa using hpa
        have h2t : e2.1 < t := lt_trans h21 h1t
        have hk1 : ∀ e, s.residualL2Norm_[nm1]? = some e → e.1 < t := by
          intro e he; rw [he1] at he; exact (Option.some.inj he) ▸ h1t
        have hk2 : ∀ e, s.residualL2Norm_[nm2]? = some e → e.1 < t := by
          intro e he; rw [he2] at he; exact (Option.some.inj he) ▸ h2t
        simp only [hr, he2]
        by_cases hc : e2.2.1 = 0
        · simp only [hc, ne_eq, not_true_eq_false, if_false]
        · simp only [ne_eq, hc, not_false_eq_true, if_true]
          rw [← hcall s rfl nm2 hk2]
          cases h1 : refresh_norm cfg (update_undRelxFac_fuel cfg f) s nm2 with
          | error e => rfl
          | ok s1 =>
            have hst := same_norm_times_refresh_norm cfg _
              (same_norm_times_update_fuel cfg f) _ _ _ h1
            simp only
            rw [← hcall s1 hst nm1 hk1]

theorem norms_below_le_length (s : State K P) (t : K) :
    norms_below s t ≤ s.residualL2Norm_.length := by
  unfold norms_below
  exact (List.countP_le_length _).trans (by simp)

theorem refresh_norm_call (cfg : Config K P)
    (recurse : State K P → K → Except Err (State K P)) (s : State K P) (k : Nat) :
    refresh_norm cfg recurse s k = .ok s ∨
    refresh_norm cfg recurse s k = .error .EndIterator ∨
    refresh_norm cfg recurse s k = .error .AssertionFailure ∨
    ∃ nm s1, s.residualL2Norm_[k]? = some nm ∧ same_norm_times s s1 ∧
      refresh_norm cfg recurse s k = recurse s1 nm.1 := by
  unfold refresh_norm
  split
  · exact Or.inr (Or.inl rfl)
  · rename_i nm hnm
    split
    · exact Or.inr (Or.inr (Or.inl rfl))
    · split
      · exact Or.inr (Or.inl rfl)
      · rename_i lvl _
        split
        · exact Or.inr (Or.inr (Or.inr ⟨nm, _, hnm,
            same_norm_times_assign s k (cfg.sqrt (localResidualMagSqSum lvl.2)), rfl⟩))
        · exact Or.inl rfl

/-- C22. Termination of the factor resolution: for every state and every time `t`,
`update_undRelxFac t` does not use up its recursion budget; any budget above the number of
cached norm entries with a time below `t`, a number that is at most the size of the cache,
gives the same result. The recursive calls are those of the two checks of cached norms: a
check of the entry at index `k` returns without recursion or makes one recursive call, at the
time of that entry and on a state with the same cache times; and the entries checked, the
first with a time below `t` and the first with a time below that one, have times below
`t`. -/
theorem factor_resolution_terminates (cfg : Config K P) (s : State K P) (t : K) :
    update_undRelxFac cfg s t ≠ .error .OutOfFuel ∧
    (∀ fuel, norms_below s t < fuel →
      update_undRelxFac_fuel cfg fuel s t ≠ .error .OutOfFuel ∧
      update_undRelxFac_fuel cfg fuel s t = update_undRelxFac cfg s t) ∧
    norms_below s t ≤ s.residualL2Norm_.length ∧
    (∀ (recurse : State K P → K → Except Err (State K P)) (s0 : State K P) (k : Nat),
      refresh_norm cfg recurse s0 k = .ok s0 ∨
      refresh_norm cfg recurse s0 k = .error .EndIterator ∨
      refresh_norm cfg recurse s0 k = .error .AssertionFailure ∨
      ∃ nm s1, s0.residualL2Norm_[k]? = some nm ∧ same_norm_times s0 s1 ∧
        refresh_norm cfg recurse s0 k = recurse s1 nm.1) ∧
    (∀ nm2, find_NM2 s.residualL2Norm_
        (find_if (fun b => decide (b.1 < t)) s.residualL2Norm_) = .ok (some nm2) →
      ∃ nm1 e1 e2, find_if (fun b => decide (b.1 < t)) s.residualL2Norm_ = some nm1 ∧
        s.residualL2Norm_[nm1]? = some e1 ∧ s.residualL2Norm_[nm2]? = some e2 ∧
        e2.1 < e1.1 ∧ e1.1 < t) := by
  have hlen := norms_below_le_length s t
  refine ⟨update_fuel_enough cfg _ s t (Nat.lt_succ_of_le hlen), ?_, hlen,
    refresh_norm_call cfg, ?_⟩
  · intro fuel hf
    exact ⟨update_fuel_enough cfg fuel s t hf,
      update_fuel_stable cfg fuel _ s t hf (Nat.lt_succ_of_le hlen)⟩
  · intro nm2 h
    obtain ⟨nm1, e1, e2, hr, he1, he2, h21⟩ := find_NM2_ok_some _ _ _ h
    obtain ⟨a, ha, hpa⟩ := find_if_some_get _ _ _ hr
    refine ⟨nm1, e1, e2, hr, he1, he2, h21, ?_⟩
    rw [he1] at ha
    simp only [Option.some.injEq] at ha
    subst ha
    simpa using hpa

end Lemmas

end Aitken
